import Mathlib

/-!
# Verification of the GradescopeSync extraction / normalization / projection core

This file gives a shallow embedding of the core of the GradescopeSync
repository (files `ical_generator.py`, `sync_gradescope.py`, `generate_ical.py`)
and settles the frozen claims about it.

The embedding covers:

* the date normalizer `parse_date` (identical in `ical_generator.py` and
  `sync_gradescope.py`), including a faithful model of CPython
  `datetime.strptime` restricted to the fourteen concrete format strings the
  code uses, and of the final permissive regular-expression fallback;
* the iCal event projector `create_event` / `create_calendar`;
* the assignment extractor `GradescopeClient.get_assignments` over a model of
  a parsed HTML tree with BeautifulSoup-style descendant queries;
* the dictionary-building pipeline of `generate_ical.py`.

Python behaviour that matters for the claims is modelled explicitly:
dictionary access `d.get(k, default)` distinguishes a missing key from a key
stored with value `None` (`Option (Option String)` fields), string
interpolation renders `None` as the literal `"None"`, truthiness treats both
`None` and the empty string as false, and a raised `ValueError` that escapes
a function is an `Except.error`.  `datetime.now().year` is an environment
input and is passed in as the `currentYear` parameter.  All definitions are
executable.
-/

namespace GradescopeSync

/-! ## Basic datetime model -/

/-- A Python `datetime.datetime` value as produced by this program: calendar
components plus an optional fixed UTC offset in seconds (`tzinfo` made from
`timezone(timedelta(seconds))`).  Microseconds are always zero here and are
omitted. -/
structure Datetime where
  year : Nat
  month : Nat
  day : Nat
  hour : Nat
  minute : Nat
  second : Nat
  tzOffset : Option Int
  deriving DecidableEq, Repr

/-- Leap-year rule used by the proleptic Gregorian calendar of `datetime`. -/
def isLeap (y : Nat) : Bool :=
  y % 4 = 0 && (y % 100 != 0 || y % 400 = 0)

/-- Days in a month, as validated by the `datetime` constructor. -/
def daysInMonth (y m : Nat) : Nat :=
  if m = 2 then (if isLeap y then 29 else 28)
  else if m = 4 ∨ m = 6 ∨ m = 9 ∨ m = 11 then 30
  else 31

/-! ## Character and string helpers

These mirror the character classes the Python code relies on
(`str.strip`, `\s`, `\d`, `\w`, ASCII case-insensitive matching). -/

/-- Python/regex ASCII whitespace: the characters stripped by `str.strip()`
and matched by `\s` on the inputs this program sees. -/
def isSpacePy (c : Char) : Bool :=
  c = ' ' ∨ c = '\t' ∨ c = '\n' ∨ c = '\r' ∨ c = Char.ofNat 11 ∨ c = Char.ofNat 12

/-- ASCII decimal digit, the regex class `\d` (ASCII fragment). -/
def isDigitC (c : Char) : Bool := '0' ≤ c ∧ c ≤ '9'

/-- Value of a decimal digit character. -/
def digitVal (c : Char) : Option Nat :=
  if isDigitC c then some (c.toNat - 48) else none

/-- The decimal digit character for `n < 10`. -/
def digitChar (n : Nat) : Char := Char.ofNat (48 + n)

/-- ASCII lower-casing, used for the `re.IGNORECASE` matching of
`strptime` literals, month names and AM/PM markers. -/
def asciiLower (c : Char) : Char :=
  if 'A' ≤ c ∧ c ≤ 'Z' then Char.ofNat (c.toNat + 32) else c

/-- Case-insensitive character comparison (ASCII). -/
def lowerEqChar (a b : Char) : Bool := asciiLower a = asciiLower b

/-- The regex word class `\w` (ASCII fragment): letters, digits, underscore. -/
def isWordC (c : Char) : Bool := c.isAlpha ∨ isDigitC c ∨ c = '_'

/-- Numeric value of a digit string, Python `int(...)` on a `(\d+)` capture. -/
def natOfDigits (l : List Char) : Nat :=
  l.foldl (fun acc c => acc * 10 + (c.toNat - 48)) 0

/-- Drop a trailing run of characters satisfying `p`. -/
def dropTrailing (p : Char → Bool) : List Char → List Char
  | [] => []
  | c :: t =>
    let r := dropTrailing p t
    if r = [] ∧ p c then [] else c :: r

/-- Python `str.strip()` on the character list of a string. -/
def trimL (l : List Char) : List Char :=
  dropTrailing isSpacePy (l.dropWhile isSpacePy)

/-- Case-insensitive prefix removal; `some rest` when `pat` is a prefix of
`s` up to ASCII case. -/
def stripPrefixCI : List Char → List Char → Option (List Char)
  | [], s => some s
  | _ :: _, [] => none
  | c :: cs, x :: xs => if lowerEqChar c x then stripPrefixCI cs xs else none

/-- Case-sensitive prefix removal. -/
def stripPrefixEx : List Char → List Char → Option (List Char)
  | [], s => some s
  | _ :: _, [] => none
  | c :: cs, x :: xs => if c = x then stripPrefixEx cs xs else none

/-- Substring test (case-sensitive), Python `pat in s`. -/
def hasSubstr (pat : List Char) : List Char → Bool
  | [] => (stripPrefixEx pat []).isSome
  | c :: t => (stripPrefixEx pat (c :: t)).isSome || hasSubstr pat t

/-- String-level substring test. -/
def containsSub (s pat : String) : Bool := hasSubstr pat.data s.data

/-! ## The `strptime` model

CPython `_strptime` turns a format string into a regular expression:
whitespace in the format becomes `\s+`, other literal characters match
case-insensitively, and each directive becomes an alternation.  The
alternations used by the fourteen formats of `parse_date` are

* `%d` : `3[01]|[12]\d|0[1-9]|[1-9]| [1-9]`
* `%m`, `%I` : `1[0-2]|0[1-9]|[1-9]`
* `%H` : `2[0-3]|[0-1]\d|\d`
* `%M` : `[0-5]\d|\d`
* `%S` : `6[0-1]|[0-5]\d|\d`
* `%Y` : `\d\d\d\d`
* `%p` : `AM|PM` (case-insensitive)
* `%b`, `%B` : the twelve month abbreviations / names (case-insensitive;
  no name is a prefix of another, so at most one alternative matches)
* `%z` : `[+-]\d\d:?[0-5]\d(:?[0-5]\d(\.\d{1,6})?)?|Z`

The model runs the token list over the input with regex backtracking:
each token yields its match candidates in alternation/greedy order and the
first candidate whose continuation succeeds wins.  The whole input must be
consumed (`unconverted data remains` check).  A match that produces an
out-of-range date raises `ValueError` inside `strptime`, which `parse_date`
catches; the model folds that into a `none` result of `finalize`. -/

/-- Directives appearing in the formats used by `parse_date`. -/
inductive Dir where
  | Y | m | d | H | I | M | S | p | z | b | B
  deriving DecidableEq, Repr

/-- A compiled format token: a literal character, a whitespace run, or a
directive. -/
inductive Tok where
  | lit (c : Char)
  | ws
  | dir (dd : Dir)
  deriving DecidableEq, Repr

/-- Partial field assignment built up while matching a format. -/
structure Fields where
  year : Option Nat := none
  month : Option Nat := none
  day : Option Nat := none
  hour24 : Option Nat := none
  hour12 : Option Nat := none
  minute : Option Nat := none
  second : Option Nat := none
  pm : Option Bool := none
  tz : Option Int := none
  deriving DecidableEq, Repr

def Fields.init : Fields := {}

def setY (v : Nat) (f : Fields) : Fields := { f with year := some v }
def setMo (v : Nat) (f : Fields) : Fields := { f with month := some v }
def setD (v : Nat) (f : Fields) : Fields := { f with day := some v }
def setH (v : Nat) (f : Fields) : Fields := { f with hour24 := some v }
def setI (v : Nat) (f : Fields) : Fields := { f with hour12 := some v }
def setMin (v : Nat) (f : Fields) : Fields := { f with minute := some v }
def setS (v : Nat) (f : Fields) : Fields := { f with second := some v }
def setP (v : Bool) (f : Fields) : Fields := { f with pm := some v }
def setZ (v : Int) (f : Fields) : Fields := { f with tz := some v }

/-- A sentinel character that matches no alternative's second position;
used when only one input character remains. -/
def nullChar : Char := Char.ofNat 0

/-- `%d` alternation `3[01]|[12]\d|0[1-9]|[1-9]| [1-9]`, as a function of the
next two characters; each hit reports its value and how many characters it
consumes, in alternation order. -/
def dAlts (c1 c2 : Char) : List (Nat × Nat) :=
  (match c1, digitVal c2 with
   | '3', some v => if v ≤ 1 then [(30 + v, 2)] else []
   | _, _ => []) ++
  (match digitVal c1, digitVal c2 with
   | some v1, some v2 => if v1 = 1 ∨ v1 = 2 then [(v1 * 10 + v2, 2)] else []
   | _, _ => []) ++
  (match c1, digitVal c2 with
   | '0', some v => if 1 ≤ v then [(v, 2)] else []
   | _, _ => []) ++
  (match digitVal c1 with
   | some v => if 1 ≤ v then [(v, 1)] else []
   | none => []) ++
  (match c1, digitVal c2 with
   | ' ', some v => if 1 ≤ v then [(v, 2)] else []
   | _, _ => [])

/-- `%m` and `%I` alternation `1[0-2]|0[1-9]|[1-9]`. -/
def mAlts (c1 c2 : Char) : List (Nat × Nat) :=
  (match c1, digitVal c2 with
   | '1', some v => if v ≤ 2 then [(10 + v, 2)] else []
   | _, _ => []) ++
  (match c1, digitVal c2 with
   | '0', some v => if 1 ≤ v then [(v, 2)] else []
   | _, _ => []) ++
  (match digitVal c1 with
   | some v => if 1 ≤ v then [(v, 1)] else []
   | none => [])

/-- `%H` alternation `2[0-3]|[0-1]\d|\d`. -/
def hAlts (c1 c2 : Char) : List (Nat × Nat) :=
  (match c1, digitVal c2 with
   | '2', some v => if v ≤ 3 then [(20 + v, 2)] else []
   | _, _ => []) ++
  (match digitVal c1, digitVal c2 with
   | some v1, some v2 => if v1 ≤ 1 then [(v1 * 10 + v2, 2)] else []
   | _, _ => []) ++
  (match digitVal c1 with
   | some v => [(v, 1)]
   | none => [])

/-- `%M` alternation `[0-5]\d|\d`. -/
def minAlts (c1 c2 : Char) : List (Nat × Nat) :=
  (match digitVal c1, digitVal c2 with
   | some v1, some v2 => if v1 ≤ 5 then [(v1 * 10 + v2, 2)] else []
   | _, _ => []) ++
  (match digitVal c1 with
   | some v => [(v, 1)]
   | none => [])

/-- `%S` alternation `6[0-1]|[0-5]\d|\d`. -/
def sAlts (c1 c2 : Char) : List (Nat × Nat) :=
  (match c1, digitVal c2 with
   | '6', some v => if v ≤ 1 then [(60 + v, 2)] else []
   | _, _ => []) ++
  (match digitVal c1, digitVal c2 with
   | some v1, some v2 => if v1 ≤ 5 then [(v1 * 10 + v2, 2)] else []
   | _, _ => []) ++
  (match digitVal c1 with
   | some v => [(v, 1)]
   | none => [])

/-- Candidates of a two-character numeric alternation on the input. -/
def numCands (alts : Char → Char → List (Nat × Nat)) : List Char → List (Nat × List Char)
  | [] => []
  | [c1] => (alts c1 nullChar).map (fun p => (p.1, []))
  | c1 :: c2 :: r => (alts c1 c2).map (fun p => (p.1, if p.2 = 1 then c2 :: r else r))

/-- `%Y` matches exactly four digits. -/
def yCands : List Char → List (Nat × List Char)
  | c1 :: c2 :: c3 :: c4 :: r =>
    match digitVal c1, digitVal c2, digitVal c3, digitVal c4 with
    | some a, some b, some c, some e => [(((a * 10 + b) * 10 + c) * 10 + e, r)]
    | _, _, _, _ => []
  | _ => []

/-- Month abbreviations in locale order (stored lower-case, matched
case-insensitively, as in `LocaleTime.a_month`). -/
def monthAbbrs : List String :=
  ["jan", "feb", "mar", "apr", "may", "jun", "jul", "aug", "sep", "oct", "nov", "dec"]

/-- Full month names (lower-case).  No name is a prefix of another, so the
sort-by-length the Python code performs cannot change which alternative
matches and the natural order is used here. -/
def monthFulls : List String :=
  ["january", "february", "march", "april", "may", "june",
   "july", "august", "september", "october", "november", "december"]

/-- Candidates of a name alternation (`%b`/`%B`): each name that is a
case-insensitive prefix of the input, with its 1-based index. -/
def nameCands : List String → Nat → List Char → List (Nat × List Char)
  | [], _, _ => []
  | nm :: rest, i, s =>
    match stripPrefixCI nm.data s with
    | some r => (i, r) :: nameCands rest (i + 1) s
    | none => nameCands rest (i + 1) s

/-- `%p` candidates: `AM` or `PM`, case-insensitively; value is `isPM`. -/
def pCands (s : List Char) : List (Bool × List Char) :=
  (match stripPrefixCI ['a', 'm'] s with
   | some r => [(false, r)]
   | none => []) ++
  (match stripPrefixCI ['p', 'm'] s with
   | some r => [(true, r)]
   | none => [])

/-- Read exactly two digits, as `hh` inside `%z`. -/
def twoDigits : List Char → Option (Nat × List Char)
  | c1 :: c2 :: r =>
    match digitVal c1, digitVal c2 with
    | some a, some b => some (a * 10 + b, r)
    | _, _ => none
  | _ => none

/-- Read `[0-5]\d`, as `mm`/`ss` inside `%z`. -/
def min2Digits : List Char → Option (Nat × List Char)
  | c1 :: c2 :: r =>
    match digitVal c1, digitVal c2 with
    | some a, some b => if a ≤ 5 then some (a * 10 + b, r) else none
    | _, _ => none
  | _ => none

/-- Optional `:` (greedy: taking the colon is preferred and the alternative
without it can never match `[0-5]\d` on a colon, so this is deterministic). -/
def colonOpt : List Char → List Char
  | ':' :: r => r
  | s => s

/-- Fraction `(\.\d{1,6})?` candidates after the seconds of `%z`: consumed
character counts in greedy order, longest first, then the empty match.  The
fractional value itself is below the resolution of this model and ignored;
no input of this program carries one. -/
def fracRests (s : List Char) : List (List Char) :=
  (match s with
   | '.' :: t =>
     let ds := (t.takeWhile isDigitC).length
     let n := min ds 6
     (List.range n).map (fun k => t.drop (n - k))
   | _ => []) ++ [s]

/-- `%z` candidates, in regex alternation/greedy order: sign, two-digit
hours, optional colon, `[0-5]\d` minutes, then optionally seconds (with
optional fraction), longest first; or the literal `Z` (case-sensitive,
offset zero).  Values are offsets in seconds. -/
def zCands (s : List Char) : List (Int × List Char) :=
  (match s with
   | 'Z' :: r => [((0 : Int), r)]
   | c :: r =>
     if c = '+' ∨ c = '-' then
       match twoDigits r with
       | none => []
       | some (hh, r1) =>
         match min2Digits (colonOpt r1) with
         | none => []
         | some (mm, r2) =>
           let base : Int := (hh : Int) * 3600 + (mm : Int) * 60
           let sgn : Int := if c = '-' then -1 else 1
           (match min2Digits (colonOpt r2) with
            | some (ss, r3) =>
              (fracRests r3).map (fun r4 => (sgn * (base + (ss : Int)), r4))
            | none => []) ++ [(sgn * base, r2)]
     else []
   | [] => [])

/-- Match candidates of one token on the input: pairs of a field update and
the remaining input, in the order the backtracking regex engine would try
them. -/
def Tok.cands : Tok → List Char → List ((Fields → Fields) × List Char)
  | .lit _, [] => []
  | .lit c, x :: r => if lowerEqChar c x then [(id, r)] else []
  | .ws, s =>
    let n := (s.takeWhile isSpacePy).length
    (List.range n).map (fun k => (id, s.drop (n - k)))
  | .dir .Y, s => (yCands s).map (fun p => (setY p.1, p.2))
  | .dir .m, s => (numCands mAlts s).map (fun p => (setMo p.1, p.2))
  | .dir .d, s => (numCands dAlts s).map (fun p => (setD p.1, p.2))
  | .dir .H, s => (numCands hAlts s).map (fun p => (setH p.1, p.2))
  | .dir .I, s => (numCands mAlts s).map (fun p => (setI p.1, p.2))
  | .dir .M, s => (numCands minAlts s).map (fun p => (setMin p.1, p.2))
  | .dir .S, s => (numCands sAlts s).map (fun p => (setS p.1, p.2))
  | .dir .p, s => (pCands s).map (fun p => (setP p.1, p.2))
  | .dir .b, s => (nameCands monthAbbrs 1 s).map (fun p => (setMo p.1, p.2))
  | .dir .B, s => (nameCands monthFulls 1 s).map (fun p => (setMo p.1, p.2))
  | .dir .z, s => (zCands s).map (fun p => (setZ p.1, p.2))

/-- Run a token list over the input with backtracking; the whole input must
be consumed. -/
def runToks : List Tok → List Char → Fields → Option Fields
  | [], [], f => some f
  | [], _ :: _, _ => none
  | t :: ts, s, f => (t.cands s).findSome? (fun u => runToks ts u.2 (u.1 f))

/-- The hour reconstruction of `_strptime`: `%H` wins outright; otherwise
`%I` combined with `%p` (a missing or `AM` marker maps 12 to 0, `PM` adds
12 except at 12). -/
def finalHour (f : Fields) : Nat :=
  match f.hour24 with
  | some h => h
  | none =>
    match f.hour12 with
    | some h12 =>
      match f.pm with
      | some true => if h12 = 12 then 12 else h12 + 12
      | _ => if h12 = 12 then 0 else h12
    | none => 0

/-- The `timezone(timedelta(...))` constructor check: a parsed offset must
be strictly within a day. -/
def tzOkB : Option Int → Bool
  | none => true
  | some o => decide (-86400 < o ∧ o < 86400)

/-- Build the `datetime` from matched fields, with the range validation the
constructor performs; `none` is the caught `ValueError`.  Missing fields
default as in `_strptime` (year 1900, month 1, day 1, time 0:00:00). -/
def finalize (f : Fields) : Option Datetime :=
  let y := f.year.getD 1900
  let mo := f.month.getD 1
  let da := f.day.getD 1
  let hr := finalHour f
  let mi := f.minute.getD 0
  let se := f.second.getD 0
  if (decide (1 ≤ y ∧ y ≤ 9999 ∧ 1 ≤ mo ∧ mo ≤ 12 ∧ 1 ≤ da ∧ da ≤ daysInMonth y mo ∧
      hr ≤ 23 ∧ mi ≤ 59 ∧ se ≤ 59) && tzOkB f.tz) = true then
    some ⟨y, mo, da, hr, mi, se, f.tz⟩
  else none

/-- `datetime.strptime` on one compiled format: `none` for both a failed
match and a caught out-of-range `ValueError`. -/
def strptime (fmt : List Tok) (s : List Char) : Option Datetime :=
  (runToks fmt s Fields.init).bind finalize

/-! ### The fourteen formats of `parse_date`, compiled to tokens -/

/-- Format string `"%Y-%m-%d %H:%M:%S %z"`. -/
def fmtYmdHmsZ : List Tok :=
  [.dir .Y, .lit '-', .dir .m, .lit '-', .dir .d, .ws,
   .dir .H, .lit ':', .dir .M, .lit ':', .dir .S, .ws, .dir .z]

/-- Format string `"%Y-%m-%dT%H:%M:%S%z"`. -/
def fmtIsoZ : List Tok :=
  [.dir .Y, .lit '-', .dir .m, .lit '-', .dir .d, .lit 'T',
   .dir .H, .lit ':', .dir .M, .lit ':', .dir .S, .dir .z]

/-- Format string `"%Y-%m-%dT%H:%M:%S"`. -/
def fmtIso : List Tok :=
  [.dir .Y, .lit '-', .dir .m, .lit '-', .dir .d, .lit 'T',
   .dir .H, .lit ':', .dir .M, .lit ':', .dir .S]

/-- Format string `"%b %d, %Y %I:%M %p"`. -/
def fmtAbbr : List Tok :=
  [.dir .b, .ws, .dir .d, .lit ',', .ws, .dir .Y, .ws,
   .dir .I, .lit ':', .dir .M, .ws, .dir .p]

/-- Format string `"%b %d, %Y at %I:%M %p"`. -/
def fmtAbbrAt : List Tok :=
  [.dir .b, .ws, .dir .d, .lit ',', .ws, .dir .Y, .ws, .lit 'a', .lit 't', .ws,
   .dir .I, .lit ':', .dir .M, .ws, .dir .p]

/-- Format string `"%B %d, %Y %I:%M %p"`. -/
def fmtFull : List Tok :=
  [.dir .B, .ws, .dir .d, .lit ',', .ws, .dir .Y, .ws,
   .dir .I, .lit ':', .dir .M, .ws, .dir .p]

/-- Format string `"%B %d, %Y at %I:%M %p"`. -/
def fmtFullAt : List Tok :=
  [.dir .B, .ws, .dir .d, .lit ',', .ws, .dir .Y, .ws, .lit 'a', .lit 't', .ws,
   .dir .I, .lit ':', .dir .M, .ws, .dir .p]

/-- Format string `"%m/%d/%Y %I:%M %p"`. -/
def fmtSlash : List Tok :=
  [.dir .m, .lit '/', .dir .d, .lit '/', .dir .Y, .ws,
   .dir .I, .lit ':', .dir .M, .ws, .dir .p]

/-- The `formats_with_year` list, in source order. -/
def fmtsWithYear : List (List Tok) :=
  [fmtYmdHmsZ, fmtIsoZ, fmtIso, fmtAbbr, fmtAbbrAt, fmtFull, fmtFullAt, fmtSlash]

/-- Format string `"%B %d at %I:%M%p"`. -/
def fmtNY1 : List Tok :=
  [.dir .B, .ws, .dir .d, .ws, .lit 'a', .lit 't', .ws, .dir .I, .lit ':', .dir .M, .dir .p]

/-- Format string `"%B %d at %I:%M %p"`. -/
def fmtNY2 : List Tok :=
  [.dir .B, .ws, .dir .d, .ws, .lit 'a', .lit 't', .ws, .dir .I, .lit ':', .dir .M, .ws, .dir .p]

/-- Format string `"%b %d at %I:%M%p"`. -/
def fmtNY3 : List Tok :=
  [.dir .b, .ws, .dir .d, .ws, .lit 'a', .lit 't', .ws, .dir .I, .lit ':', .dir .M, .dir .p]

/-- Format string `"%b %d at %I:%M %p"`. -/
def fmtNY4 : List Tok :=
  [.dir .b, .ws, .dir .d, .ws, .lit 'a', .lit 't', .ws, .dir .I, .lit ':', .dir .M, .ws, .dir .p]

/-- Format string `"%B %d %I:%M%p"`. -/
def fmtNY5 : List Tok :=
  [.dir .B, .ws, .dir .d, .ws, .dir .I, .lit ':', .dir .M, .dir .p]

/-- Format string `"%B %d %I:%M %p"`. -/
def fmtNY6 : List Tok :=
  [.dir .B, .ws, .dir .d, .ws, .dir .I, .lit ':', .dir .M, .ws, .dir .p]

/-- The `formats_without_year` list, in source order. -/
def fmtsNoYear : List (List Tok) :=
  [fmtNY1, fmtNY2, fmtNY3, fmtNY4, fmtNY5, fmtNY6]

/-! ## `parse_date` -/

/-- First format of a list whose `strptime` succeeds. -/
def tryFmts : List (List Tok) → List Char → Option Datetime
  | [], _ => none
  | f :: fs, s =>
    match strptime f s with
    | some dt => some dt
    | none => tryFmts fs s

/-- `datetime.replace(year=y)`, revalidating as the constructor does.  A
year-less format parses with the default year 1900 (not a leap year), so a
day valid there is valid for every year and only the year range check can
fire. -/
def replaceYear (dt : Datetime) (y : Nat) : Option Datetime :=
  if 1 ≤ y ∧ y ≤ 9999 then some { dt with year := y } else none

/-- The `formats_without_year` loop: `strptime` then
`parsed.replace(year=current_year)`, both inside the same
`except ValueError: continue`. -/
def tryYearless : List (List Tok) → List Char → Nat → Option Datetime
  | [], _, _ => none
  | f :: fs, s, y =>
    match strptime f s with
    | some dt =>
      match replaceYear dt y with
      | some dt2 => some dt2
      | none => tryYearless fs s y
    | none => tryYearless fs s y

/-- Captures of the permissive pattern
`(\w+)\s+(\d+)\s+at\s+(\d+):(\d+)\s*([AP]M)` (with `re.IGNORECASE`). -/
structure ReGroups where
  monthW : List Char
  day : Nat
  hour : Nat
  minute : Nat
  isPM : Bool
  deriving DecidableEq, Repr

/-- Match the permissive pattern anchored at the start of `s`.  Because
`\w`, `\s`, `\d` and the terminal `[AP]M` are pairwise disjoint character
classes, greedy matching here is deterministic and no backtracking can
produce a match the greedy strategy misses. -/
def matchAt (s : List Char) : Option ReGroups := do
  let w := s.takeWhile isWordC
  if w = [] then failure
  let s1 := s.dropWhile isWordC
  if (s1.takeWhile isSpacePy) = [] then failure
  let s2 := s1.dropWhile isSpacePy
  let d := s2.takeWhile isDigitC
  if d = [] then failure
  let s3 := s2.dropWhile isDigitC
  if (s3.takeWhile isSpacePy) = [] then failure
  let s4 := s3.dropWhile isSpacePy
  match s4 with
  | a :: t :: s5 =>
    if ¬ (lowerEqChar a 'a' ∧ lowerEqChar t 't') then failure
    if (s5.takeWhile isSpacePy) = [] then failure
    let s6 := s5.dropWhile isSpacePy
    let h := s6.takeWhile isDigitC
    if h = [] then failure
    let s7 := s6.dropWhile isDigitC
    match s7 with
    | ':' :: s8 =>
      let mn := s8.takeWhile isDigitC
      if mn = [] then failure
      let s9 := s8.dropWhile isDigitC
      let s10 := s9.dropWhile isSpacePy
      match s10 with
      | c1 :: c2 :: _ =>
        if (lowerEqChar c1 'a' ∨ lowerEqChar c1 'p') ∧ lowerEqChar c2 'm' then
          pure ⟨w, natOfDigits d, natOfDigits h, natOfDigits mn, lowerEqChar c1 'p'⟩
        else failure
      | _ => failure
    | _ => failure
  | _ => failure

/-- `re.search`: try the pattern at every start position, leftmost first. -/
def reSearch : List Char → Option ReGroups
  | [] => none
  | c :: t =>
    match matchAt (c :: t) with
    | some g => some g
    | none => reSearch t

/-- Month-name resolution of the regex branch:
`datetime.strptime(month_str, "%B")` then `"%b"`, each requiring a full
match. -/
def monthOf (w : List Char) : Option Nat :=
  match (runToks [.dir .B] w Fields.init).bind finalize with
  | some dt => some dt.month
  | none =>
    match (runToks [.dir .b] w Fields.init).bind finalize with
    | some dt => some dt.month
    | none => none

/-- The 12-hour conversion of the regex branch:
`hour += 12` iff `PM` and not 12, `12 AM` maps to 0. -/
def regexHour (hour : Nat) (isPM : Bool) : Nat :=
  if isPM ∧ hour ≠ 12 then hour + 12
  else if ¬ isPM ∧ hour = 12 then 0
  else hour

/-- The range validation of `datetime(year, month, day, hour, minute)`. -/
def validYMDHM (y mo da hr mi : Nat) : Bool :=
  decide (1 ≤ y ∧ y ≤ 9999 ∧ 1 ≤ da ∧ da ≤ daysInMonth y mo ∧ hr ≤ 23 ∧ mi ≤ 59)

/-- The regex fallback of `parse_date`.  The final
`datetime(current_year, month, day, hour, minute)` is the one construction
site in `parse_date` outside any `try`, so an out-of-range component raises
an uncaught `ValueError`, modelled as `Except.error`. -/
def regexPhase (cs : List Char) (currentYear : Nat) : Except String (Option Datetime) :=
  match reSearch cs with
  | none => .ok none
  | some g =>
    match monthOf g.monthW with
    | none => .ok none
    | some mo =>
      let hr := regexHour g.hour g.isPM
      if validYMDHM currentYear mo g.day hr g.minute then
        .ok (some ⟨currentYear, mo, g.day, hr, g.minute, 0, none⟩)
      else
        .error "ValueError: date value out of range"

/-- `parse_date` from `ical_generator.py` (textually identical to
`GradescopeClient._parse_date` in `sync_gradescope.py`).  The argument is an
optional string (`None` and `""` are falsy and answer `None` immediately);
`currentYear` is `datetime.now().year`.  A raised `ValueError` escaping the
function is `Except.error`. -/
def parse_date (input : Option String) (currentYear : Nat) : Except String (Option Datetime) :=
  match input with
  | none => .ok none
  | some s =>
    if s.data = [] then .ok none
    else
      let cs := trimL s.data
      match tryFmts fmtsWithYear cs with
      | some dt => .ok (some dt)
      | none =>
        match tryYearless fmtsNoYear cs currentYear with
        | some dt => .ok (some dt)
        | none => regexPhase cs currentYear

/-! ## Python value helpers for the iCal projector -/

/-- Truthiness of an optional string: Python `if x:` is false for `None`
and for the empty string. -/
def pyTruthy : Option String → Bool
  | none => false
  | some s => s ≠ ""

/-- Rendering of an optional string inside an f-string: `None` prints as
the literal `"None"`. -/
def pyShow : Option String → String
  | none => "None"
  | some s => s

/-- `d.get(k)` when the stored field is `Option (Option String)`: the outer
layer is key presence, the inner layer is the stored value (possibly
`None`). -/
def pyGet (v : Option (Option String)) : Option String := v.getD none

/-- `d.get(k, default)` with a string default. -/
def pyGetD (v : Option (Option String)) (dflt : String) : Option String :=
  v.getD (some dflt)

/-! ## The iCal event projector (`ical_generator.py`) -/

/-- The dictionary handed to `create_event`.  `name` and `course_name` are
accessed with `assignment[...]` (a `KeyError` if missing) and are always
present on every path in this program, so they are plain strings; the other
five keys are accessed with `.get` and are modelled as
presence-of-key × stored-value. -/
structure AssignmentDict where
  name : String
  course_name : String
  course_full_name : Option (Option String) := none
  course_id : Option (Option String) := none
  assignment_id : Option (Option String) := none
  due_date : Option (Option String) := none
  url : Option (Option String) := none
  deriving DecidableEq, Repr

/-- An `icalendar.Event` as populated by `create_event`. -/
structure Event where
  summary : String
  uid : String
  dtstart : Datetime
  dtend : Datetime
  dtstamp : Datetime
  description : String
  url : Option String
  deriving DecidableEq, Repr

/-- `create_event` from `ical_generator.py`.  `now` is `datetime.utcnow()`
and `currentYear` is `datetime.now().year` used inside `parse_date`; both
are environment inputs.  A `ValueError` escaping `parse_date` escapes
`create_event` too. -/
def create_event (a : AssignmentDict) (now : Datetime) (currentYear : Nat) :
    Except String (Option Event) :=
  match parse_date (pyGet a.due_date) currentYear with
  | .error e => .error e
  | .ok none => .ok none
  | .ok (some due) =>
    let title := a.name ++ " - " ++ a.course_name
    let course_id := pyGetD a.course_id "unknown"
    let assignment_id := pyGetD a.assignment_id "unknown"
    let uid := pyShow course_id ++ "-" ++ pyShow assignment_id ++ "@gradescope-sync"
    let fullName :=
      match a.course_full_name with
      | none => a.course_name
      | some v => pyShow v
    let urlV := pyGet a.url
    let desc :=
      "Course: " ++ fullName ++
        (if pyTruthy urlV then "\nLink: " ++ pyShow urlV else "")
    .ok (some
      { summary := title, uid := uid, dtstart := due, dtend := due,
        dtstamp := now, description := desc,
        url := if pyTruthy urlV then some (pyShow urlV) else none })

/-- The event loop of `create_calendar`: events of the successfully
projected assignments, in input order; a raised `ValueError` aborts the
whole loop. -/
def calendarEvents (l : List AssignmentDict) (now : Datetime) (currentYear : Nat) :
    Except String (List Event) :=
  match l with
  | [] => .ok []
  | a :: t =>
    match create_event a now currentYear with
    | .error e => .error e
    | .ok none => calendarEvents t now currentYear
    | .ok (some ev) =>
      match calendarEvents t now currentYear with
      | .error e => .error e
      | .ok evs => .ok (ev :: evs)

/-- An `icalendar.Calendar` as populated by `create_calendar`. -/
structure Calendar where
  prodid : String
  version : String
  calscale : String
  method : String
  calname : String
  timezone : String
  events : List Event
  deriving DecidableEq, Repr

/-- `create_calendar` from `ical_generator.py` with its default `prodid`. -/
def create_calendar (l : List AssignmentDict) (now : Datetime) (currentYear : Nat) :
    Except String Calendar :=
  match calendarEvents l now currentYear with
  | .error e => .error e
  | .ok evs =>
    .ok { prodid := "-//Gradescope Calendar Sync//EN", version := "2.0",
          calscale := "GREGORIAN", method := "PUBLISH",
          calname := "Gradescope Assignments", timezone := "America/Los_Angeles",
          events := evs }

/-! ## HTML tree model and BeautifulSoup-style queries

The extractor receives a parsed tree and uses only: descendant search by
tag name, by attribute value, by membership of a class token, regex search
over an attribute value, and `get_text(strip=True)`.  Attributes are an
association list (`.get` answers `none` for a missing attribute); the
multi-valued `class` attribute is a separate token list, matching
BeautifulSoup's `class_` filter. -/

/-- A node of the parsed markup tree. -/
inductive HNode where
  | text (s : String)
  | elem (tag : String) (attrs : List (String × String)) (classes : List String)
      (children : List HNode)

/-- Tag name of a node (text nodes have none). -/
def HNode.tagOf : HNode → Option String
  | .text _ => none
  | .elem t _ _ _ => some t

/-- Attribute lookup, `node.get(key)`. -/
def HNode.attr : HNode → String → Option String
  | .text _, _ => none
  | .elem _ attrs _ _, k => (attrs.find? (fun p => p.1 == k)).map (fun p => p.2)

/-- Class-token membership, the `class_="c"` filter. -/
def HNode.hasClass : HNode → String → Bool
  | .text _, _ => false
  | .elem _ _ cls _, c => cls.contains c

mutual
/-- All descendants of a node in document (preorder) order, the search
space of `find` / `find_all` (the node itself is excluded). -/
def descendants : HNode → List HNode
  | .text _ => []
  | .elem _ _ _ cs => descendantsList cs

def descendantsList : List HNode → List HNode
  | [] => []
  | c :: cs => c :: descendants c ++ descendantsList cs
end

mutual
/-- `get_text(strip=True)`: concatenation of the stripped text fragments of
all descendants, in document order. -/
def getTextStrip : HNode → String
  | .text s => String.mk (trimL s.data)
  | .elem _ _ _ cs => getTextStripList cs

def getTextStripList : List HNode → String
  | [] => ""
  | c :: cs => getTextStrip c ++ getTextStripList cs
end

/-- `find`: first descendant satisfying the filter. -/
def hfind (p : HNode → Bool) (n : HNode) : Option HNode :=
  (descendants n).find? p

/-- `find_all`: all descendants satisfying the filter, in document order. -/
def hfindAll (p : HNode → Bool) (n : HNode) : List HNode :=
  (descendants n).filter p

/-! ## The assignment extractor (`GradescopeClient.get_assignments`) -/

/-- `GRADESCOPE_BASE_URL`. -/
def BASE : String := "https://www.gradescope.com"

/-- The record appended per extracted row. -/
structure Assignment where
  name : String
  id : Option String
  due_date : Option String
  url : Option String
  deriving DecidableEq, Repr

/-- `re.search(r"/assignments/(\d+)", href)`: the capture of the leftmost
occurrence of `/assignments/` followed by at least one digit (maximal digit
run). -/
def extractAid : List Char → Option String
  | [] => none
  | c :: t =>
    match stripPrefixEx "/assignments/".data (c :: t) with
    | some r =>
      if (r.takeWhile isDigitC) = [] then extractAid t
      else some (String.mk (r.takeWhile isDigitC))
    | none => extractAid t

/-- The `href=re.compile(r"/assignments/\d+")` filter on anchors. -/
def isAssignLink (n : HNode) : Bool :=
  n.tagOf == some "a" &&
    (match n.attr "href" with
     | some h => (extractAid h.data).isSome
     | none => false)

/-- The `row.find("button", attrs={"data-assignment-title": True})` filter. -/
def isSubmitButton (n : HNode) : Bool :=
  n.tagOf == some "button" && (n.attr "data-assignment-title").isSome

/-- The designated due-date node filter,
`row.find("time", class_="submissionTimeChart--dueDate")`. -/
def isDueTime (n : HNode) : Bool :=
  n.tagOf == some "time" && n.hasClass "submissionTimeChart--dueDate"

/-- The hidden-column cell filter, `row.find_all("td", class_="hidden-column")`. -/
def isHiddenTd (n : HNode) : Bool :=
  n.tagOf == some "td" && n.hasClass "hidden-column"

/-- A time node whose `aria-label` contains `"Due at"`. -/
def hasDueAt (n : HNode) : Bool :=
  containsSub (pyShow (some ((n.attr "aria-label").getD ""))) "Due at"

/-- The due-date resolution of `get_assignments`, mirroring the sequential
assignments and `if not due_date:` truthiness checks of the source: a value
assigned by an earlier method is kept (even if empty) unless a later method
runs and overwrites it. -/
def dueDateOf (row : HNode) : Option String :=
  let d1 : Option String :=
    match hfind isDueTime row with
    | some el => el.attr "datetime"
    | none => none
  let d2 : Option String :=
    if pyTruthy d1 then d1
    else
      match hfindAll isHiddenTd row with
      | _ :: c2 :: _ => some (getTextStrip c2)
      | _ => d1
  if pyTruthy d2 then d2
  else
    match (hfindAll (fun n => n.tagOf == some "time") row).find? hasDueAt with
    | some t =>
      some (match t.attr "datetime" with
            | some v => if v ≠ "" then v else getTextStrip t
            | none => getTextStrip t)
    | none => d2

/-- The anchor text of the first assignment link, when there is one. -/
def linkName (row : HNode) : Option String :=
  (hfind isAssignLink row).map getTextStrip

/-- The `href` variable after method 1: the link's `href` attribute (it is
never reset by method 2). -/
def hrefOf (row : HNode) : Option String :=
  (hfind isAssignLink row).map (fun l => (l.attr "href").getD "")

/-- The name resolved by the two strategies: the anchor text when truthy,
else the button's `data-assignment-title` when a button exists, else the
anchor text (possibly empty) or nothing. -/
def resolvedName (row : HNode) : Option String :=
  let name1 := linkName row
  if pyTruthy name1 then name1
  else
    match hfind isSubmitButton row with
    | some b => some ((b.attr "data-assignment-title").getD "")
    | none => name1

/-- The `aid` variable after both methods: the captured path segment of the
link, overwritten by the button's `data-assignment-id` when method 2 runs. -/
def resolvedAid (row : HNode) : Option String :=
  let aid1 := (hfind isAssignLink row).bind (fun l => extractAid ((l.attr "href").getD "").data)
  if pyTruthy (linkName row) then aid1
  else
    match hfind isSubmitButton row with
    | some b => b.attr "data-assignment-id"
    | none => aid1

/-- The url expression of the appended record:
`f"{base}{href}" if href else f"{base}/courses/{cid}/assignments/{aid}" if aid else None`. -/
def urlOf (course_id : String) (href aid : Option String) : Option String :=
  if pyTruthy href then some (BASE ++ href.getD "")
  else if pyTruthy aid then
    some (BASE ++ "/courses/" ++ course_id ++ "/assignments/" ++ aid.getD "")
  else none

/-- Processing of one `tr[role=row]`: `none` for a header row or a row
without a name, `some record` otherwise. -/
def processRow (course_id : String) (row : HNode) : Option Assignment :=
  if (hfind (fun n => n.attr "role" == some "columnheader") row).isSome then none
  else if ¬ pyTruthy (resolvedName row) then none
  else
    some { name := (resolvedName row).getD "",
           id := resolvedAid row,
           due_date := dueDateOf row,
           url := urlOf course_id (hrefOf row) (resolvedAid row) }

/-- The row filter `soup.find_all("tr", role="row")`. -/
def isDataRow (n : HNode) : Bool :=
  n.tagOf == some "tr" && n.attr "role" == some "row"

/-- `GradescopeClient.get_assignments` on an already-parsed page. -/
def get_assignments (soup : HNode) (course_id : String) : List Assignment :=
  (hfindAll isDataRow soup).filterMap (processRow course_id)

/-! ## The `generate_ical.py` pipeline -/

/-- A course record as produced by `get_courses`: all four fields are
always plain strings there. -/
structure CourseRecord where
  id : String
  short_name : String
  full_name : String
  url : String
  deriving DecidableEq, Repr

/-- The dictionary `generate_ical.main` builds for each (course,
assignment) pair: every key is present; `assignment_id`, `due_date` and
`url` carry the extracted values, which may be `None`. -/
def toDict (c : CourseRecord) (a : Assignment) : AssignmentDict :=
  { name := a.name,
    course_name := c.short_name,
    course_full_name := some (some c.full_name),
    course_id := some (some c.id),
    assignment_id := some a.id,
    due_date := some a.due_date,
    url := some a.url }

/-! ## Specification-side definitions

These follow the words of the specification / claims rather than the
source; they exist to be compared with the source-derived definitions. -/

/-- Claim C4's reading of the due-date resolution: (a) if a time node with
the designated class carries a datetime attribute, that attribute; (b)
otherwise, with at least two hidden-column cells, the text of the second;
(c) otherwise the first time node whose accessibility label contains
`"Due at"`, its datetime attribute or, failing that, its text; otherwise
absent. -/
def dueDateSpecC4 (row : HNode) : Option String :=
  match hfind (fun n => isDueTime n && (n.attr "datetime").isSome) row with
  | some el => el.attr "datetime"
  | none =>
    match hfindAll isHiddenTd row with
    | _ :: c2 :: _ => some (getTextStrip c2)
    | _ =>
      match (hfindAll (fun n => n.tagOf == some "time") row).find? hasDueAt with
      | some t =>
        some (match t.attr "datetime" with
              | some v => v
              | none => getTextStrip t)
      | none => none

/-- Strategy (a) as an attempted assignment: `none` when the designated
time node is missing (nothing assigned), otherwise the value assigned —
the node's datetime attribute, possibly `None` or empty. -/
def stratA (row : HNode) : Option (Option String) :=
  (hfind isDueTime row).map (fun el => el.attr "datetime")

/-- Strategy (b): assigns the stripped text of the second hidden-column
cell when there are at least two. -/
def stratB (row : HNode) : Option (Option String) :=
  match hfindAll isHiddenTd row with
  | _ :: c2 :: _ => some (some (getTextStrip c2))
  | _ => none

/-- Strategy (c): assigns, for the first time node whose `aria-label`
contains `"Due at"`, its non-empty datetime attribute or else its stripped
text. -/
def stratC (row : HNode) : Option (Option String) :=
  ((hfindAll (fun n => n.tagOf == some "time") row).find? hasDueAt).map
    (fun t =>
      some (match t.attr "datetime" with
            | some v => if v ≠ "" then v else getTextStrip t
            | none => getTextStrip t))

/-- An ordered chain of attempted assignments: a truthy assigned value
short-circuits; an untruthy assigned value is carried as the current value;
an unattempted strategy changes nothing. -/
def chainDue : List (Option (Option String)) → Option String → Option String
  | [], acc => acc
  | none :: rest, acc => chainDue rest acc
  | some v :: rest, _ => if pyTruthy v then v else chainDue rest v

/-- The amended strategy-chain description of the due-date resolution. -/
def dueChain (row : HNode) : Option String :=
  chainDue [stratA row, stratB row, stratC row] none

/-- String suffix test. -/
def strEndsWith (s t : String) : Bool := t.data.isSuffixOf s.data

/-! ## Concrete inputs used by counterexamples and witnesses -/

/-- The serialization timestamp used in concrete scenarios (`utcnow`). -/
def now0 : Datetime := ⟨2026, 1, 1, 0, 0, 0, none⟩

/-- The assignment table of claim C8: one header row and one data row whose
designated time node carries `datetime="2026-02-01T09:00:00-0800"`. -/
def c8Soup : HNode :=
  .elem "table" [] [] [
    .elem "tr" [("role", "row")] [] [
      .elem "th" [("role", "columnheader")] [] [.text "Name"]],
    .elem "tr" [("role", "row")] [] [
      .elem "td" [] [] [
        .elem "a" [("href", "/courses/123/assignments/456")] [] [.text "Homework 1"]],
      .elem "td" [] [] [
        .elem "time" [("datetime", "2026-02-01T09:00:00-0800")]
          ["submissionTimeChart--dueDate"] [.text "Feb 1"]]]]

/-- The record extracted from the data row of `c8Soup`. -/
def c8Rec : Assignment :=
  ⟨"Homework 1", some "456", some "2026-02-01T09:00:00-0800",
   some "https://www.gradescope.com/courses/123/assignments/456"⟩

/-- The course of the C8 scenario. -/
def c8Course : CourseRecord := ⟨"123", "CS 1", "Computer Science 1", "u"⟩

/-- The event projected in the C8 scenario. -/
def c8Event : Event :=
  { summary := "Homework 1 - CS 1",
    uid := "123-456@gradescope-sync",
    dtstart := ⟨2026, 2, 1, 9, 0, 0, some (-28800)⟩,
    dtend := ⟨2026, 2, 1, 9, 0, 0, some (-28800)⟩,
    dtstamp := now0,
    description := "Course: Computer Science 1\nLink: https://www.gradescope.com/courses/123/assignments/456",
    url := some "https://www.gradescope.com/courses/123/assignments/456" }

/-- A data row on which claim C4's reading and the code diverge: the first
time node with the designated class has no datetime attribute, a second
one has, and two hidden-column cells are present. -/
def c4Row : HNode :=
  .elem "tr" [("role", "row")] [] [
    .elem "td" [] [] [.elem "a" [("href", "/assignments/9")] [] [.text "HW"]],
    .elem "time" [] ["submissionTimeChart--dueDate"] [],
    .elem "time" [("datetime", "2026-03-03T10:00:00")] ["submissionTimeChart--dueDate"] [],
    .elem "td" [] ["hidden-column"] [.text "x"],
    .elem "td" [] ["hidden-column"] [.text "Mar 3"]]

/-- A table containing only `c4Row`. -/
def c4Soup : HNode := .elem "table" [] [] [c4Row]

/-- A table whose one data row has no assignment link and a submit button
whose `data-assignment-id` is the empty string. -/
def c10Soup : HNode :=
  .elem "table" [] [] [
    .elem "tr" [("role", "row")] [] [
      .elem "td" [] [] [
        .elem "button" [("data-assignment-title", "HW1"), ("data-assignment-id", "")] [] []]]]

/-- Assignment dictionaries with parseable due dates, for permutation
scenarios. -/
def dictA : AssignmentDict :=
  { name := "A", course_name := "C", due_date := some (some "2026-01-15T23:59:00") }

/-- A second dictionary, distinct from `dictA`. -/
def dictB : AssignmentDict :=
  { name := "B", course_name := "C", due_date := some (some "Jan 16, 2026 11:59 PM") }

/-- The event shared by the two colliding projections of the C3
counterexample. -/
def c3Event : Event :=
  { summary := "HW - C", uid := "a-b-c@gradescope-sync",
    dtstart := ⟨2026, 1, 15, 23, 59, 0, none⟩, dtend := ⟨2026, 1, 15, 23, 59, 0, none⟩,
    dtstamp := now0, description := "Course: CF", url := none }

/-- A data row whose name comes from an anchor with
`href="/assignments/5"`. -/
def c10RowW : HNode :=
  .elem "tr" [("role", "row")] [] [
    .elem "td" [] [] [.elem "a" [("href", "/assignments/5")] [] [.text "HW"]]]

/-- Whether an `Except` computation finished without a raised exception. -/
def isOkE {α : Type} : Except String α → Bool
  | .ok _ => true
  | .error _ => false

/-- Outcome relation for the event loop under permuted inputs: both raise,
or both succeed with permuted event lists. -/
def evRel : Except String (List Event) → Except String (List Event) → Prop
  | .ok a, .ok b => a.Perm b
  | .error _, .error _ => True
  | _, _ => False

/-! ## Canonical renderings of the eight absolute formats

To state the format-equivalence property (claim C7) we render an instant
in each supported year-carrying format exactly as `strftime` would
(zero-padded fields, capitalized month names, `±HHMM` offsets) and compare
the normalizer's results.  A format that cannot express the instant
(seconds in the 12-hour formats, an offset in a naive format) renders
`none`. -/

/-- Zero-padded two-digit rendering. -/
def pad2 (n : Nat) : List Char := [digitChar (n / 10), digitChar (n % 10)]

/-- Zero-padded four-digit rendering. -/
def pad4 (n : Nat) : List Char :=
  [digitChar (n / 1000), digitChar (n / 100 % 10), digitChar (n / 10 % 10), digitChar (n % 10)]

/-- Capitalized month abbreviation, as `strftime %b` prints it. -/
def abbrCap : Nat → List Char
  | 1 => "Jan".data | 2 => "Feb".data | 3 => "Mar".data | 4 => "Apr".data
  | 5 => "May".data | 6 => "Jun".data | 7 => "Jul".data | 8 => "Aug".data
  | 9 => "Sep".data | 10 => "Oct".data | 11 => "Nov".data | _ => "Dec".data

/-- Capitalized full month name, as `strftime %B` prints it. -/
def fullCap : Nat → List Char
  | 1 => "January".data | 2 => "February".data | 3 => "March".data | 4 => "April".data
  | 5 => "May".data | 6 => "June".data | 7 => "July".data | 8 => "August".data
  | 9 => "September".data | 10 => "October".data | 11 => "November".data | _ => "December".data

/-- The 12-hour field printed for a 24-hour value. -/
def h12of (h : Nat) : Nat := if h % 12 = 0 then 12 else h % 12

/-- The AM/PM marker printed for a 24-hour value. -/
def ampmCh (h : Nat) : List Char := if 12 ≤ h then "PM".data else "AM".data

/-- `strftime %z` for a whole-minute offset within a day: `±HHMM`. -/
def renderTZ (o : Int) : Option (List Char) :=
  if o % 60 = 0 ∧ -86400 < o ∧ o < 86400 then
    some ((if o < 0 then '-' else '+') :: pad2 (o.natAbs / 3600) ++ pad2 (o.natAbs / 60 % 60))
  else none

/-- `"%Y-%m-%d"` body. -/
def bodyDate (dt : Datetime) : List Char :=
  pad4 dt.year ++ '-' :: pad2 dt.month ++ '-' :: pad2 dt.day

/-- `"%H:%M:%S"` body. -/
def bodyTime (dt : Datetime) : List Char :=
  pad2 dt.hour ++ ':' :: pad2 dt.minute ++ ':' :: pad2 dt.second

/-- `"%I:%M %p"` body. -/
def bodyHuman (dt : Datetime) : List Char :=
  pad2 (h12of dt.hour) ++ ':' :: pad2 dt.minute ++ ' ' :: ampmCh dt.hour

/-- `"%d, %Y"` body. -/
def bodyMid (dt : Datetime) : List Char :=
  pad2 dt.day ++ ',' :: ' ' :: pad4 dt.year

/-- Canonical rendering of an instant in each of the eight
`formats_with_year`, in source order. -/
def renderFmt : Fin 8 → Datetime → Option String
  | ⟨0, _⟩, dt =>
    match dt.tzOffset with
    | some o => (renderTZ o).map (fun z => String.mk (bodyDate dt ++ ' ' :: bodyTime dt ++ ' ' :: z))
    | none => none
  | ⟨1, _⟩, dt =>
    match dt.tzOffset with
    | some o => (renderTZ o).map (fun z => String.mk (bodyDate dt ++ 'T' :: bodyTime dt ++ z))
    | none => none
  | ⟨2, _⟩, dt =>
    if dt.tzOffset = none then some (String.mk (bodyDate dt ++ 'T' :: bodyTime dt)) else none
  | ⟨3, _⟩, dt =>
    if dt.tzOffset = none ∧ dt.second = 0 then
      some (String.mk (abbrCap dt.month ++ ' ' :: bodyMid dt ++ ' ' :: bodyHuman dt))
    else none
  | ⟨4, _⟩, dt =>
    if dt.tzOffset = none ∧ dt.second = 0 then
      some (String.mk (abbrCap dt.month ++ ' ' :: bodyMid dt ++ ' ' :: 'a' :: 't' :: ' ' :: bodyHuman dt))
    else none
  | ⟨5, _⟩, dt =>
    if dt.tzOffset = none ∧ dt.second = 0 then
      some (String.mk (fullCap dt.month ++ ' ' :: bodyMid dt ++ ' ' :: bodyHuman dt))
    else none
  | ⟨6, _⟩, dt =>
    if dt.tzOffset = none ∧ dt.second = 0 then
      some (String.mk (fullCap dt.month ++ ' ' :: bodyMid dt ++ ' ' :: 'a' :: 't' :: ' ' :: bodyHuman dt))
    else none
  | ⟨7, _⟩, dt =>
    if dt.tzOffset = none ∧ dt.second = 0 then
      some (String.mk (pad2 dt.month ++ '/' :: pad2 dt.day ++ '/' :: pad4 dt.year ++ ' ' :: bodyHuman dt))
    else none

/-- The calendar components every `datetime` value satisfies (the
constructor validates them). -/
def ValidDT (dt : Datetime) : Prop :=
  1 ≤ dt.year ∧ dt.year ≤ 9999 ∧ 1 ≤ dt.month ∧ dt.month ≤ 12 ∧
  1 ≤ dt.day ∧ dt.day ≤ daysInMonth dt.year dt.month ∧
  dt.hour ≤ 23 ∧ dt.minute ≤ 59 ∧ dt.second ≤ 59

instance : DecidablePred ValidDT := fun dt => by unfold ValidDT; infer_instance

/-- The component bounds shared by every render lemma. -/
def CompOK (y mo da hr mi se : Nat) : Prop :=
  1 ≤ y ∧ y ≤ 9999 ∧ 1 ≤ mo ∧ mo ≤ 12 ∧ 1 ≤ da ∧ da ≤ daysInMonth y mo ∧
  hr ≤ 23 ∧ mi ≤ 59 ∧ se ≤ 59

/-! ## Helper lemmas -/

/-- The uid written into every projected event, as a function of the two
id entries of the dictionary. -/
theorem create_event_uid {d : AssignmentDict} {now : Datetime} {y : Nat} {e : Event}
    (h : create_event d now y = .ok (some e)) :
    e.uid = pyShow (pyGetD d.course_id "unknown") ++ "-" ++
      pyShow (pyGetD d.assignment_id "unknown") ++ "@gradescope-sync" := by
  unfold create_event at h
  cases hp : parse_date (pyGet d.due_date) y with
  | error err => simp only [hp] at h; exact Except.noConfusion h
  | ok o =>
    simp only [hp] at h
    cases o with
    | none => exact Option.noConfusion (Except.ok.inj h)
    | some due =>
      simp only [Except.ok.injEq, Option.some.injEq] at h
      subst h
      rfl

/-- Splitting a dash-separated concatenation when neither left part
contains a dash. -/
theorem append_dash_inj {c₁ c₂ r₁ r₂ : List Char} (h₁ : '-' ∉ c₁) (h₂ : '-' ∉ c₂)
    (h : c₁ ++ '-' :: r₁ = c₂ ++ '-' :: r₂) : c₁ = c₂ ∧ r₁ = r₂ := by
  induction c₁ generalizing c₂ with
  | nil =>
    cases c₂ with
    | nil => simpa using h
    | cons z zs =>
      simp only [List.nil_append, List.cons_append, List.cons.injEq] at h
      exact absurd (h.1 ▸ List.mem_cons_self z zs) h₂
  | cons x xs ih =>
    cases c₂ with
    | nil =>
      simp only [List.cons_append, List.nil_append, List.cons.injEq] at h
      exact absurd (h.1 ▸ List.mem_cons_self x xs) h₁
    | cons z zs =>
      simp only [List.cons_append, List.cons.injEq] at h
      obtain ⟨hx, ht⟩ := h
      have := ih (fun hm => h₁ (List.mem_cons_of_mem x hm))
        (fun hm => h₂ (List.mem_cons_of_mem z hm)) ht
      exact ⟨by rw [hx, this.1], this.2⟩

/-- Strings with equal character lists are equal. -/
theorem strDataInj {s t : String} (h : s.data = t.data) : s = t := by
  cases s; cases t; exact congrArg String.mk h

/-- `None` is falsy. -/
theorem pyTruthy_none : pyTruthy none = false := rfl

/-- A format list none of whose members parses the input yields nothing. -/
theorem tryFmts_eq_none {fs : List (List Tok)} {s : List Char}
    (h : ∀ f ∈ fs, strptime f s = none) : tryFmts fs s = none := by
  induction fs with
  | nil => rfl
  | cons f fs ih =>
    unfold tryFmts
    rw [h f (List.mem_cons_self f fs)]
    exact ih (fun g hg => h g (List.mem_cons_of_mem f hg))

/-- Every success of the year-less loop carries the reference year. -/
theorem tryYearless_year {fs : List (List Tok)} {s : List Char} {y : Nat} {dt : Datetime}
    (h : tryYearless fs s y = some dt) : dt.year = y := by
  induction fs with
  | nil => simp [tryYearless] at h
  | cons f fs ih =>
    unfold tryYearless at h
    cases hs : strptime f s with
    | none => simp only [hs] at h; exact ih h
    | some d0 =>
      simp only [hs] at h
      cases hr : replaceYear d0 y with
      | none => simp only [hr] at h; exact ih h
      | some d1 =>
        simp only [hr, Option.some.injEq] at h
        subst h
        unfold replaceYear at hr
        split at hr
        · injection hr with hr
          rw [← hr]
        · cases hr

/-- Every datetime produced by the regex fallback carries the reference
year. -/
theorem regexPhase_year {cs : List Char} {y : Nat} {d : Datetime}
    (h : regexPhase cs y = .ok (some d)) : d.year = y := by
  unfold regexPhase at h
  cases hg : reSearch cs with
  | none => simp only [hg] at h; exact Option.noConfusion (Except.ok.inj h)
  | some g =>
    simp only [hg] at h
    cases hm : monthOf g.monthW with
    | none => simp only [hm] at h; exact Option.noConfusion (Except.ok.inj h)
    | some mo =>
      simp only [hm] at h
      cases hv : validYMDHM y mo g.day (regexHour g.hour g.isPM) g.minute with
      | true =>
        simp only [hv, if_true] at h
        simp only [Except.ok.injEq, Option.some.injEq] at h
        rw [← h]
      | false =>
        simp only [hv, if_false] at h
        exact Except.noConfusion h

/-- The event loop respects permutations of its input. -/
theorem calendarEvents_rel {now : Datetime} {y : Nat} {l₁ l₂ : List AssignmentDict}
    (h : l₁.Perm l₂) : evRel (calendarEvents l₁ now y) (calendarEvents l₂ now y) := by
  induction h with
  | nil => exact List.Perm.refl []
  | @cons x t₁ t₂ hperm ih =>
    simp only [calendarEvents]
    cases hx : create_event x now y with
    | error e => exact trivial
    | ok o =>
      cases o with
      | none => exact ih
      | some ev =>
        cases hA : calendarEvents t₁ now y with
        | error e₁ =>
          cases hB : calendarEvents t₂ now y with
          | error e₂ => exact trivial
          | ok evs₂ => rw [hA, hB] at ih; exact False.elim ih
        | ok evs₁ =>
          cases hB : calendarEvents t₂ now y with
          | error e₂ => rw [hA, hB] at ih; exact False.elim ih
          | ok evs₂ => rw [hA, hB] at ih; exact List.Perm.cons ev ih
  | swap a b t =>
    simp only [calendarEvents]
    cases hb : create_event b now y with
    | error eb =>
      cases ha : create_event a now y with
      | error ea => exact trivial
      | ok oa =>
        cases oa with
        | none =>
          cases hl : calendarEvents t now y with
          | error e => exact trivial
          | ok evs => exact trivial
        | some eva =>
          cases hl : calendarEvents t now y with
          | error e => exact trivial
          | ok evs => exact trivial
    | ok ob =>
      cases ob with
      | none =>
        cases ha : create_event a now y with
        | error ea => exact trivial
        | ok oa =>
          cases oa with
          | none =>
            cases hl : calendarEvents t now y with
            | error e => exact trivial
            | ok evs => exact List.Perm.refl evs
          | some eva =>
            cases hl : calendarEvents t now y with
            | error e => exact trivial
            | ok evs => exact List.Perm.refl (eva :: evs)
      | some evb =>
        cases ha : create_event a now y with
        | error ea => exact trivial
        | ok oa =>
          cases oa with
          | none =>
            cases hl : calendarEvents t now y with
            | error e => exact trivial
            | ok evs => exact List.Perm.refl (evb :: evs)
          | some eva =>
            cases hl : calendarEvents t now y with
            | error e => exact trivial
            | ok evs => exact List.Perm.swap eva evb evs
  | @trans l₁ l₂ l₃ h₁ h₂ ih₁ ih₂ =>
    cases hA : calendarEvents l₁ now y with
    | error e₁ =>
      cases hB : calendarEvents l₂ now y with
      | error e₂ =>
        cases hC : calendarEvents l₃ now y with
        | error e₃ => exact trivial
        | ok evs₃ => rw [hB, hC] at ih₂; exact False.elim ih₂
      | ok evs₂ => rw [hA, hB] at ih₁; exact False.elim ih₁
    | ok evs₁ =>
      cases hB : calendarEvents l₂ now y with
      | error e₂ => rw [hA, hB] at ih₁; exact False.elim ih₁
      | ok evs₂ =>
        cases hC : calendarEvents l₃ now y with
        | error e₃ => rw [hB, hC] at ih₂; exact False.elim ih₂
        | ok evs₃ =>
          rw [hA, hB] at ih₁
          rw [hB, hC] at ih₂
          exact List.Perm.trans (ih₁ : evs₁.Perm evs₂) (ih₂ : evs₂.Perm evs₃)

/-! ### Stepping lemmas for the token matcher -/

/-- Unfolding one matching step on a known candidate list. -/
theorem runToks_cons_eq {t : Tok} {ts : List Tok} {s : List Char} {f : Fields}
    {cs : List ((Fields → Fields) × List Char)}
    (hc : t.cands s = cs) :
    runToks (t :: ts) s f = cs.findSome? (fun w => runToks ts w.2 (w.1 f)) := by
  show (t.cands s).findSome? (fun w => runToks ts w.2 (w.1 f)) = _
  rw [hc]

/-- A token with no candidates fails. -/
theorem runToks_fail {t : Tok} {ts : List Tok} {s : List Char} {f : Fields}
    (hc : t.cands s = []) : runToks (t :: ts) s f = none := by
  rw [runToks_cons_eq hc]
  rfl

/-- First candidate whose continuation succeeds wins. -/
theorem runToks_first_of {t : Tok} {ts : List Tok} {s : List Char} {f g : Fields}
    {u : (Fields → Fields) × List Char} {rest : List ((Fields → Fields) × List Char)}
    (hc : t.cands s = u :: rest) (h : runToks ts u.2 (u.1 f) = some g) :
    runToks (t :: ts) s f = some g := by
  rw [runToks_cons_eq hc, List.findSome?_cons, h]

/-- A single candidate whose continuation fails. -/
theorem runToks_single_fail {t : Tok} {ts : List Tok} {s : List Char} {f : Fields}
    {u : (Fields → Fields) × List Char}
    (hc : t.cands s = [u]) (h : runToks ts u.2 (u.1 f) = none) :
    runToks (t :: ts) s f = none := by
  rw [runToks_cons_eq hc, List.findSome?_cons, h]
  rfl

/-- Two candidates, both of whose continuations fail. -/
theorem runToks_two_fail {t : Tok} {ts : List Tok} {s : List Char} {f : Fields}
    {u v : (Fields → Fields) × List Char}
    (hc : t.cands s = [u, v])
    (h1 : runToks ts u.2 (u.1 f) = none) (h2 : runToks ts v.2 (v.1 f) = none) :
    runToks (t :: ts) s f = none := by
  rw [runToks_cons_eq hc, List.findSome?_cons, h1]
  show List.findSome? (fun w => runToks ts w.2 (w.1 f)) [v] = none
  rw [List.findSome?_cons, h2]
  rfl

/-! ### Candidate-shape lemmas on canonical renders -/

/-- A digit character is not whitespace. -/
theorem sp_digit {k : Nat} (h : k < 10) : isSpacePy (digitChar k) = false := by
  revert h; revert k
  show ∀ k, k < 10 → isSpacePy (digitChar k) = false
  decide

/-- The space itself is whitespace. -/
theorem sp_space : isSpacePy ' ' = true := rfl

/-- `%d` candidates on a zero-padded day. -/
theorem cands_d {da : Nat} (h1 : 1 ≤ da) (h2 : da ≤ 31) (r : List Char) :
    Tok.cands (.dir .d) (pad2 da ++ r) =
      if da < 10 then [(setD da, r)]
      else [(setD da, r), (setD (da / 10), digitChar (da % 10) :: r)] := by
  have key : ∀ x, x < 32 → 1 ≤ x →
      dAlts (digitChar (x / 10)) (digitChar (x % 10)) =
        if x < 10 then [(x, 2)] else [(x, 2), (x / 10, 1)] := by decide
  have hk := key da (by omega) h1
  show (numCands dAlts (pad2 da ++ r)).map _ = _
  unfold pad2
  rw [List.cons_append, List.cons_append, List.nil_append]
  show ((dAlts (digitChar (da / 10)) (digitChar (da % 10))).map _).map _ = _
  rw [hk]
  by_cases hlt : da < 10
  · simp [hlt]
  · simp [hlt]

/-- `%m` candidates on a zero-padded month. -/
theorem cands_m {mo : Nat} (h1 : 1 ≤ mo) (h2 : mo ≤ 12) (r : List Char) :
    Tok.cands (.dir .m) (pad2 mo ++ r) =
      if mo < 10 then [(setMo mo, r)]
      else [(setMo mo, r), (setMo 1, digitChar (mo % 10) :: r)] := by
  have key : ∀ x, x < 13 → 1 ≤ x →
      mAlts (digitChar (x / 10)) (digitChar (x % 10)) =
        if x < 10 then [(x, 2)] else [(x, 2), (1, 1)] := by decide
  have hk := key mo (by omega) h1
  show (numCands mAlts (pad2 mo ++ r)).map _ = _
  unfold pad2
  rw [List.cons_append, List.cons_append, List.nil_append]
  show ((mAlts (digitChar (mo / 10)) (digitChar (mo % 10))).map _).map _ = _
  rw [hk]
  by_cases hlt : mo < 10
  · simp [hlt]
  · simp [hlt]

/-- `%I` candidates on a zero-padded 12-hour value. -/
theorem cands_i {i : Nat} (h1 : 1 ≤ i) (h2 : i ≤ 12) (r : List Char) :
    Tok.cands (.dir .I) (pad2 i ++ r) =
      if i < 10 then [(setI i, r)]
      else [(setI i, r), (setI 1, digitChar (i % 10) :: r)] := by
  have key : ∀ x, x < 13 → 1 ≤ x →
      mAlts (digitChar (x / 10)) (digitChar (x % 10)) =
        if x < 10 then [(x, 2)] else [(x, 2), (1, 1)] := by decide
  have hk := key i (by omega) h1
  show (numCands mAlts (pad2 i ++ r)).map _ = _
  unfold pad2
  rw [List.cons_append, List.cons_append, List.nil_append]
  show ((mAlts (digitChar (i / 10)) (digitChar (i % 10))).map _).map _ = _
  rw [hk]
  by_cases hlt : i < 10
  · simp [hlt]
  · simp [hlt]

/-- `%H` candidates on a zero-padded 24-hour value: the bare `\d`
alternative always also fires. -/
theorem cands_h {h : Nat} (h2 : h ≤ 23) (r : List Char) :
    Tok.cands (.dir .H) (pad2 h ++ r) =
      [(setH h, r), (setH (h / 10), digitChar (h % 10) :: r)] := by
  have key : ∀ x, x < 24 →
      hAlts (digitChar (x / 10)) (digitChar (x % 10)) = [(x, 2), (x / 10, 1)] := by decide
  have hk := key h (by omega)
  show (numCands hAlts (pad2 h ++ r)).map _ = _
  unfold pad2
  rw [List.cons_append, List.cons_append, List.nil_append]
  show ((hAlts (digitChar (h / 10)) (digitChar (h % 10))).map _).map _ = _
  rw [hk]
  simp

/-- `%M` candidates on a zero-padded minute. -/
theorem cands_min {mi : Nat} (h2 : mi ≤ 59) (r : List Char) :
    Tok.cands (.dir .M) (pad2 mi ++ r) =
      [(setMin mi, r), (setMin (mi / 10), digitChar (mi % 10) :: r)] := by
  have key : ∀ x, x < 60 →
      minAlts (digitChar (x / 10)) (digitChar (x % 10)) = [(x, 2), (x / 10, 1)] := by decide
  have hk := key mi (by omega)
  show (numCands minAlts (pad2 mi ++ r)).map _ = _
  unfold pad2
  rw [List.cons_append, List.cons_append, List.nil_append]
  show ((minAlts (digitChar (mi / 10)) (digitChar (mi % 10))).map _).map _ = _
  rw [hk]
  simp

/-- `%S` candidates on a zero-padded second. -/
theorem cands_s {se : Nat} (h2 : se ≤ 59) (r : List Char) :
    Tok.cands (.dir .S) (pad2 se ++ r) =
      [(setS se, r), (setS (se / 10), digitChar (se % 10) :: r)] := by
  have key : ∀ x, x < 60 →
      sAlts (digitChar (x / 10)) (digitChar (x % 10)) = [(x, 2), (x / 10, 1)] := by decide
  have hk := key se (by omega)
  show (numCands sAlts (pad2 se ++ r)).map _ = _
  unfold pad2
  rw [List.cons_append, List.cons_append, List.nil_append]
  show ((sAlts (digitChar (se / 10)) (digitChar (se % 10))).map _).map _ = _
  rw [hk]
  simp

/-- `%Y` candidates on a zero-padded four-digit year. -/
theorem cands_y {y : Nat} (h : y ≤ 9999) (r : List Char) :
    Tok.cands (.dir .Y) (pad4 y ++ r) = [(setY y, r)] := by
  have d0 : ∀ k, k < 10 → digitVal (digitChar k) = some k := by decide
  show (yCands (pad4 y ++ r)).map _ = _
  unfold pad4
  rw [List.cons_append, List.cons_append, List.cons_append, List.cons_append, List.nil_append]
  show (match digitVal (digitChar (y / 1000)), digitVal (digitChar (y / 100 % 10)),
          digitVal (digitChar (y / 10 % 10)), digitVal (digitChar (y % 10)) with
        | some a, some b, some c, some e => [(((a * 10 + b) * 10 + c) * 10 + e, r)]
        | _, _, _, _ => []).map _ = _
  rw [d0 (y / 1000) (by omega), d0 (y / 100 % 10) (by omega),
      d0 (y / 10 % 10) (by omega), d0 (y % 10) (by omega)]
  have harith : ((y / 1000 * 10 + y / 100 % 10) * 10 + y / 10 % 10) * 10 + y % 10 = y := by
    omega
  simp [harith]

/-- `%Y` has no candidates on a non-digit first character. -/
theorem cands_y_fail {c : Char} (h : digitVal c = none) (r : List Char) :
    Tok.cands (.dir .Y) (c :: r) = [] := by
  show (yCands (c :: r)).map _ = _
  rcases r with _ | ⟨c2, _ | ⟨c3, _ | ⟨c4, r'⟩⟩⟩ <;> simp [yCands, h]

/-- A whitespace run of exactly one space. -/
theorem cands_ws_one {c : Char} (h : isSpacePy c = false) (r : List Char) :
    Tok.cands .ws (' ' :: c :: r) = [(id, c :: r)] := by
  show (List.range ((List.takeWhile isSpacePy (' ' :: c :: r)).length)).map _ = _
  rw [List.takeWhile_cons, sp_space]
  simp only [if_true]
  rw [List.takeWhile_cons, h]
  simp [List.range_succ]

/-- No whitespace at all: the `\s+` token fails. -/
theorem cands_ws_fail {c : Char} (h : isSpacePy c = false) (r : List Char) :
    Tok.cands .ws (c :: r) = [] := by
  show (List.range ((List.takeWhile isSpacePy (c :: r)).length)).map _ = _
  rw [List.takeWhile_cons, h]
  rfl

/-- A literal token on its matching character. -/
theorem cands_lit_eq {c x : Char} (h : lowerEqChar c x = true) (r : List Char) :
    Tok.cands (.lit c) (x :: r) = [(id, r)] := by
  show (if lowerEqChar c x = true then _ else _) = _
  rw [h]
  rfl

/-- A literal token on a mismatched character. -/
theorem cands_lit_ne {c x : Char} (h : lowerEqChar c x = false) (r : List Char) :
    Tok.cands (.lit c) (x :: r) = [] := by
  show (if lowerEqChar c x = true then _ else _) = _
  rw [h]
  rfl

/-- A literal never matches a digit character (for the punctuation used in
these formats). -/
theorem lower_lit_digit {c : Char} {k : Nat} (h : k < 10)
    (hc : c = '-' ∨ c = ':' ∨ c = 'T' ∨ c = '/' ∨ c = ',' ∨ c = 'a') :
    lowerEqChar c (digitChar k) = false := by
  revert h; revert k
  rcases hc with rfl | rfl | rfl | rfl | rfl | rfl <;> · show ∀ k, k < 10 → _; decide

/-- `%p` candidates on the printed AM/PM marker. -/
theorem cands_p {h : Nat} :
    Tok.cands (.dir .p) (ampmCh h) = [(setP (decide (12 ≤ h)), [])] := by
  unfold ampmCh
  by_cases hh : 12 ≤ h
  · rw [if_pos hh, decide_eq_true hh]; rfl
  · rw [if_neg hh, decide_eq_false hh]; rfl

/-- `%b` candidates on a capitalized month abbreviation. -/
theorem cands_b {m : Nat} (h1 : 1 ≤ m) (h2 : m ≤ 12) (r : List Char) :
    Tok.cands (.dir .b) (abbrCap m ++ r) = [(setMo m, r)] := by
  interval_cases m <;> rfl

/-- `%B` candidates on a capitalized full month name. -/
theorem cands_bb {m : Nat} (h1 : 1 ≤ m) (h2 : m ≤ 12) (r : List Char) :
    Tok.cands (.dir .B) (fullCap m ++ r) = [(setMo m, r)] := by
  interval_cases m <;> rfl

/-- `%z` candidates on a rendered `±HHMM` offset standing at the end of
the input. -/
theorem cands_z {o : Int} {z : List Char} (hz : renderTZ o = some z) :
    Tok.cands (.dir .z) z = [(setZ o, [])] := by
  unfold renderTZ at hz
  split at hz
  · rename_i hcond
    obtain ⟨h60, hlo, hhi⟩ := hcond
    injection hz with hz
    subst hz
    have keyNeg : ∀ hh, hh < 24 → ∀ mm, mm < 60 →
        zCands ('-' :: pad2 hh ++ pad2 mm) =
          [(-((hh : Int) * 3600 + (mm : Int) * 60), [])] := by decide
    have keyPos : ∀ hh, hh < 24 → ∀ mm, mm < 60 →
        zCands ('+' :: pad2 hh ++ pad2 mm) =
          [(((hh : Int) * 3600 + (mm : Int) * 60), [])] := by decide
    have hH : o.natAbs / 3600 < 24 := by omega
    have hM : o.natAbs / 60 % 60 < 60 := by omega
    show (zCands _).map _ = _
    by_cases ho : o < 0
    · rw [if_pos ho, keyNeg _ hH _ hM]
      have harith : -(((o.natAbs / 3600 : Nat) : Int) * 3600 + ((o.natAbs / 60 % 60 : Nat) : Int) * 60) = o := by
        omega
      rw [harith]
      rfl
    · rw [if_neg ho, keyPos _ hH _ hM]
      have harith : (((o.natAbs / 3600 : Nat) : Int) * 3600 + ((o.natAbs / 60 % 60 : Nat) : Int) * 60) = o := by
        omega
      rw [harith]
      rfl
  · exact Option.noConfusion hz

/-- `%z` has no candidates on the empty input. -/
theorem cands_z_nil : Tok.cands (.dir .z) [] = [] := rfl

/-- `%z` has no candidates on a digit character. -/
theorem cands_z_digit {k : Nat} (h : k < 10) (r : List Char) :
    Tok.cands (.dir .z) (digitChar k :: r) = [] := by
  have k1 : ∀ x, x < 10 → digitChar x ≠ 'Z' := by decide
  have k2 : ∀ x, x < 10 → ¬ (digitChar x = '+' ∨ digitChar x = '-') := by decide
  show (zCands (digitChar k :: r)).map _ = _
  have h1 : digitChar k ≠ 'Z' := k1 k h
  have h2 : ¬ (digitChar k = '+' ∨ digitChar k = '-') := k2 k h
  unfold zCands
  split
  · rename_i heq
    injection heq with heq
    exact absurd heq h1
  · rename_i c r' heq
    injection heq with hc hr
    subst hc
    rw [if_neg h2]
    rfl
  · rename_i heq
    exact List.noConfusion heq

/-! ### Whitespace-trim lemmas for canonical renders -/

/-- Dropping a leading run from a non-space head changes nothing. -/
theorem dropWhile_nonspace {c : Char} (h : isSpacePy c = false) (t : List Char) :
    List.dropWhile isSpacePy (c :: t) = c :: t := by
  rw [List.dropWhile_cons, h]
  rfl

/-- `dropTrailing` through a leading character, given the tail keeps its
contents. -/
theorem dropTrailing_cons {p : Char → Bool} {t : List Char} (c : Char)
    (h : dropTrailing p t = t) (hne : t ≠ []) : dropTrailing p (c :: t) = c :: t := by
  show (let r := dropTrailing p t; if r = [] ∧ p c = true then [] else c :: r) = c :: t
  rw [h]
  rw [if_neg (by simp [hne])]

/-- `dropTrailing` through a prefix, given the suffix keeps its contents. -/
theorem dropTrailing_append {p : Char → Bool} {l₂ : List Char} (l₁ : List Char)
    (h : dropTrailing p l₂ = l₂) (hne : l₂ ≠ []) :
    dropTrailing p (l₁ ++ l₂) = l₁ ++ l₂ := by
  induction l₁ with
  | nil => simpa using h
  | cons x xs ih =>
    rw [List.cons_append]
    exact dropTrailing_cons x ih (by simp [hne])

/-- A zero-padded pair of digits survives `dropTrailing`. -/
theorem dropTrailing_pad2 {k : Nat} (h : k < 100) :
    dropTrailing isSpacePy (pad2 k) = pad2 k := by
  revert h; revert k
  show ∀ k, k < 100 → dropTrailing isSpacePy (pad2 k) = pad2 k
  decide

/-- The AM/PM marker survives `dropTrailing`. -/
theorem dropTrailing_ampm {h : Nat} :
    dropTrailing isSpacePy (ampmCh h) = ampmCh h := by
  unfold ampmCh
  by_cases hh : 12 ≤ h
  · rw [if_pos hh]; rfl
  · rw [if_neg hh]; rfl

/-- `pad2` is never empty. -/
theorem pad2_ne_nil {k : Nat} : pad2 k ≠ [] := by
  unfold pad2
  exact List.cons_ne_nil _ _

/-- The AM/PM marker is never empty. -/
theorem ampm_ne_nil {h : Nat} : ampmCh h ≠ [] := by
  unfold ampmCh
  by_cases hh : 12 ≤ h
  · rw [if_pos hh]; exact List.cons_ne_nil _ _
  · rw [if_neg hh]; exact List.cons_ne_nil _ _

/-! ### Single-token success steps on rendered fields -/

theorem step_lit {c x : Char} (hcx : lowerEqChar c x = true) {ts : List Tok}
    {r : List Char} {f g : Fields} (h : runToks ts r f = some g) :
    runToks (Tok.lit c :: ts) (x :: r) f = some g :=
  runToks_first_of (cands_lit_eq hcx r) h

theorem step_ws {c : Char} (hc : isSpacePy c = false) {ts : List Tok}
    {r : List Char} {f g : Fields} (h : runToks ts (c :: r) f = some g) :
    runToks (Tok.ws :: ts) (' ' :: c :: r) f = some g :=
  runToks_first_of (cands_ws_one hc r) h

theorem step_y {y : Nat} (hy : y ≤ 9999) {ts : List Tok}
    {r : List Char} {f g : Fields} (h : runToks ts r (setY y f) = some g) :
    runToks (Tok.dir .Y :: ts) (pad4 y ++ r) f = some g :=
  runToks_first_of (cands_y hy r) h

theorem step_m {mo : Nat} (h1 : 1 ≤ mo) (h2 : mo ≤ 12) {ts : List Tok}
    {r : List Char} {f g : Fields} (h : runToks ts r (setMo mo f) = some g) :
    runToks (Tok.dir .m :: ts) (pad2 mo ++ r) f = some g := by
  by_cases hlt : mo < 10
  · exact runToks_first_of (by rw [cands_m h1 h2, if_pos hlt]) h
  · exact runToks_first_of (by rw [cands_m h1 h2, if_neg hlt]) h

theorem step_i {i : Nat} (h1 : 1 ≤ i) (h2 : i ≤ 12) {ts : List Tok}
    {r : List Char} {f g : Fields} (h : runToks ts r (setI i f) = some g) :
    runToks (Tok.dir .I :: ts) (pad2 i ++ r) f = some g := by
  by_cases hlt : i < 10
  · exact runToks_first_of (by rw [cands_i h1 h2, if_pos hlt]) h
  · exact runToks_first_of (by rw [cands_i h1 h2, if_neg hlt]) h

theorem step_d {da : Nat} (h1 : 1 ≤ da) (h2 : da ≤ 31) {ts : List Tok}
    {r : List Char} {f g : Fields} (h : runToks ts r (setD da f) = some g) :
    runToks (Tok.dir .d :: ts) (pad2 da ++ r) f = some g := by
  by_cases hlt : da < 10
  · exact runToks_first_of (by rw [cands_d h1 h2, if_pos hlt]) h
  · exact runToks_first_of (by rw [cands_d h1 h2, if_neg hlt]) h

theorem step_h {hr : Nat} (hh : hr ≤ 23) {ts : List Tok}
    {r : List Char} {f g : Fields} (h : runToks ts r (setH hr f) = some g) :
    runToks (Tok.dir .H :: ts) (pad2 hr ++ r) f = some g :=
  runToks_first_of (cands_h hh r) h

theorem step_min {mi : Nat} (hm : mi ≤ 59) {ts : List Tok}
    {r : List Char} {f g : Fields} (h : runToks ts r (setMin mi f) = some g) :
    runToks (Tok.dir .M :: ts) (pad2 mi ++ r) f = some g :=
  runToks_first_of (cands_min hm r) h

theorem step_s {se : Nat} (hs : se ≤ 59) {ts : List Tok}
    {r : List Char} {f g : Fields} (h : runToks ts r (setS se f) = some g) :
    runToks (Tok.dir .S :: ts) (pad2 se ++ r) f = some g :=
  runToks_first_of (cands_s hs r) h

theorem step_b {m : Nat} (h1 : 1 ≤ m) (h2 : m ≤ 12) {ts : List Tok}
    {r : List Char} {f g : Fields} (h : runToks ts r (setMo m f) = some g) :
    runToks (Tok.dir .b :: ts) (abbrCap m ++ r) f = some g :=
  runToks_first_of (cands_b h1 h2 r) h

theorem step_bb {m : Nat} (h1 : 1 ≤ m) (h2 : m ≤ 12) {ts : List Tok}
    {r : List Char} {f g : Fields} (h : runToks ts r (setMo m f) = some g) :
    runToks (Tok.dir .B :: ts) (fullCap m ++ r) f = some g :=
  runToks_first_of (cands_bb h1 h2 r) h

theorem step_p {h24 : Nat} {ts : List Tok} {f g : Fields}
    (h : runToks ts [] (setP (decide (12 ≤ h24)) f) = some g) :
    runToks (Tok.dir .p :: ts) (ampmCh h24) f = some g :=
  runToks_first_of cands_p h

theorem step_ws_ampm {h24 : Nat} {ts : List Tok} {f g : Fields}
    (h : runToks ts (ampmCh h24) f = some g) :
    runToks (Tok.ws :: ts) (' ' :: ampmCh h24) f = some g := by
  by_cases hh : 12 ≤ h24
  · rw [show ampmCh h24 = 'P' :: 'M' :: [] from by unfold ampmCh; rw [if_pos hh]] at h ⊢
    exact step_ws (by rfl) h
  · rw [show ampmCh h24 = 'A' :: 'M' :: [] from by unfold ampmCh; rw [if_neg hh]] at h ⊢
    exact step_ws (by rfl) h

theorem step_z {o : Int} {z : List Char} (hz : renderTZ o = some z)
    {ts : List Tok} {f g : Fields} (h : runToks ts [] (setZ o f) = some g) :
    runToks (Tok.dir .z :: ts) z f = some g :=
  runToks_first_of (cands_z hz) h

/-! ### Finalization lemmas -/

/-- Every month has at most 31 days. -/
theorem daysInMonth_le31 (y m : Nat) : daysInMonth y m ≤ 31 := by
  unfold daysInMonth
  split
  · split <;> omega
  · split <;> omega

/-- The printed 12-hour value is in range. -/
theorem h12of_range (h : Nat) : 1 ≤ h12of h ∧ h12of h ≤ 12 := by
  unfold h12of
  split <;> omega

/-- The 12-hour reconstruction of `_strptime` inverts the rendering. -/
theorem finalHour_h12 : ∀ h, h < 24 →
    finalHour { hour12 := some (h12of h), pm := some (decide (12 ≤ h)) } = h := by
  decide

/-- `finalize` on fully populated 24-hour fields. -/
theorem finalize_full {y mo da hr mi se : Nat} {tz : Option Int}
    (hc : 1 ≤ y ∧ y ≤ 9999 ∧ 1 ≤ mo ∧ mo ≤ 12 ∧ 1 ≤ da ∧ da ≤ daysInMonth y mo ∧
          hr ≤ 23 ∧ mi ≤ 59 ∧ se ≤ 59)
    (htz : tzOkB tz = true) :
    finalize { year := some y, month := some mo, day := some da, hour24 := some hr,
               minute := some mi, second := some se, tz := tz }
      = some ⟨y, mo, da, hr, mi, se, tz⟩ := by
  show (if (decide (1 ≤ y ∧ y ≤ 9999 ∧ 1 ≤ mo ∧ mo ≤ 12 ∧ 1 ≤ da ∧ da ≤ daysInMonth y mo ∧
           hr ≤ 23 ∧ mi ≤ 59 ∧ se ≤ 59) && tzOkB tz) = true then
        some (⟨y, mo, da, hr, mi, se, tz⟩ : Datetime)
      else none) = some ⟨y, mo, da, hr, mi, se, tz⟩
  rw [decide_eq_true hc, htz]
  rfl

/-- `finalize` on 12-hour fields as produced by the human formats. -/
theorem finalize_h12 {y mo da hr mi : Nat}
    (hc : 1 ≤ y ∧ y ≤ 9999 ∧ 1 ≤ mo ∧ mo ≤ 12 ∧ 1 ≤ da ∧ da ≤ daysInMonth y mo ∧
          hr ≤ 23 ∧ mi ≤ 59) :
    finalize { year := some y, month := some mo, day := some da,
               hour12 := some (h12of hr), pm := some (decide (12 ≤ hr)),
               minute := some mi }
      = some ⟨y, mo, da, hr, mi, 0, none⟩ := by
  have hf : finalHour { year := some y, month := some mo, day := some da,
                        hour12 := some (h12of hr), pm := some (decide (12 ≤ hr)),
                        minute := some mi }
      = hr := finalHour_h12 hr (by omega)
  show (if (decide (1 ≤ y ∧ y ≤ 9999 ∧ 1 ≤ mo ∧ mo ≤ 12 ∧ 1 ≤ da ∧ da ≤ daysInMonth y mo ∧
           finalHour { year := some y, month := some mo, day := some da,
                       hour12 := some (h12of hr), pm := some (decide (12 ≤ hr)),
                       minute := some mi } ≤ 23 ∧ mi ≤ 59 ∧ 0 ≤ 59) && tzOkB none) = true then
        some (⟨y, mo, da,
               finalHour { year := some y, month := some mo, day := some da,
                           hour12 := some (h12of hr), pm := some (decide (12 ≤ hr)),
                           minute := some mi },
               mi, 0, none⟩ : Datetime)
      else none) = some ⟨y, mo, da, hr, mi, 0, none⟩
  rw [hf]
  rw [decide_eq_true
    (show 1 ≤ y ∧ y ≤ 9999 ∧ 1 ≤ mo ∧ mo ≤ 12 ∧ 1 ≤ da ∧ da ≤ daysInMonth y mo ∧
          hr ≤ 23 ∧ mi ≤ 59 ∧ 0 ≤ 59 from
      ⟨hc.1, hc.2.1, hc.2.2.1, hc.2.2.2.1, hc.2.2.2.2.1, hc.2.2.2.2.2.1,
       hc.2.2.2.2.2.2.1, hc.2.2.2.2.2.2.2, by omega⟩)]
  rfl

/-! ### Per-format success runs on canonical renders -/

theorem run_fmt1 {y mo da hr mi se : Nat} {o : Int} {z : List Char}
    (hc : CompOK y mo da hr mi se) (hz : renderTZ o = some z) :
    strptime fmtYmdHmsZ
      (pad4 y ++ '-' :: pad2 mo ++ '-' :: pad2 da ++ ' ' :: pad2 hr ++ ':' :: pad2 mi ++
        ':' :: pad2 se ++ ' ' :: z)
      = some ⟨y, mo, da, hr, mi, se, some o⟩ := by
  obtain ⟨hy1, hy2, hmo1, hmo2, hda1, hda2, hhr, hmi, hse⟩ := hc
  have hda31 : da ≤ 31 := le_trans hda2 (daysInMonth_le31 y mo)
  have hzbound : -86400 < o ∧ o < 86400 := by
    unfold renderTZ at hz
    split at hz
    · rename_i hcond; exact ⟨hcond.2.1, hcond.2.2⟩
    · exact Option.noConfusion hz
  have hzhead : ∃ c zr, z = c :: zr ∧ isSpacePy c = false := by
    unfold renderTZ at hz
    split at hz
    · injection hz with hz
      refine ⟨_, _, hz.symm, ?_⟩
      by_cases ho : o < 0
      · rw [if_pos ho]; rfl
      · rw [if_neg ho]; rfl
    · exact Option.noConfusion hz
  obtain ⟨zc, zr, hzeq, hzsp⟩ := hzhead
  have hrun : runToks fmtYmdHmsZ
      (pad4 y ++ '-' :: pad2 mo ++ '-' :: pad2 da ++ ' ' :: pad2 hr ++ ':' :: pad2 mi ++
        ':' :: pad2 se ++ ' ' :: z) Fields.init
      = some { year := some y, month := some mo, day := some da, hour24 := some hr,
               minute := some mi, second := some se, tz := some o } := by
    refine step_y hy2 ?_
    refine step_lit (by rfl) ?_
    refine step_m hmo1 hmo2 ?_
    refine step_lit (by rfl) ?_
    refine step_d hda1 hda31 ?_
    refine step_ws (sp_digit (by omega)) ?_
    refine step_h hhr ?_
    refine step_lit (by rfl) ?_
    refine step_min hmi ?_
    refine step_lit (by rfl) ?_
    refine step_s hse ?_
    rw [hzeq]
    refine step_ws hzsp ?_
    rw [← hzeq]
    exact step_z hz (by rfl)
  unfold strptime
  rw [hrun]
  exact finalize_full ⟨hy1, hy2, hmo1, hmo2, hda1, hda2, hhr, hmi, hse⟩
    (by exact decide_eq_true hzbound)

theorem run_fmt2 {y mo da hr mi se : Nat} {o : Int} {z : List Char}
    (hc : CompOK y mo da hr mi se) (hz : renderTZ o = some z) :
    strptime fmtIsoZ
      (pad4 y ++ '-' :: pad2 mo ++ '-' :: pad2 da ++ 'T' :: pad2 hr ++ ':' :: pad2 mi ++
        ':' :: (pad2 se ++ z))
      = some ⟨y, mo, da, hr, mi, se, some o⟩ := by
  obtain ⟨hy1, hy2, hmo1, hmo2, hda1, hda2, hhr, hmi, hse⟩ := hc
  have hda31 : da ≤ 31 := le_trans hda2 (daysInMonth_le31 y mo)
  have hzbound : -86400 < o ∧ o < 86400 := by
    unfold renderTZ at hz
    split at hz
    · rename_i hcond; exact ⟨hcond.2.1, hcond.2.2⟩
    · exact Option.noConfusion hz
  have hrun : runToks fmtIsoZ
      (pad4 y ++ '-' :: pad2 mo ++ '-' :: pad2 da ++ 'T' :: pad2 hr ++ ':' :: pad2 mi ++
        ':' :: (pad2 se ++ z)) Fields.init
      = some { year := some y, month := some mo, day := some da, hour24 := some hr,
               minute := some mi, second := some se, tz := some o } := by
    refine step_y hy2 ?_
    refine step_lit (by rfl) ?_
    refine step_m hmo1 hmo2 ?_
    refine step_lit (by rfl) ?_
    refine step_d hda1 hda31 ?_
    refine step_lit (by rfl) ?_
    refine step_h hhr ?_
    refine step_lit (by rfl) ?_
    refine step_min hmi ?_
    refine step_lit (by rfl) ?_
    refine step_s hse ?_
    exact step_z hz (by rfl)
  unfold strptime
  rw [hrun]
  exact finalize_full ⟨hy1, hy2, hmo1, hmo2, hda1, hda2, hhr, hmi, hse⟩
    (by exact decide_eq_true hzbound)

theorem run_fmt3 {y mo da hr mi se : Nat}
    (hc : CompOK y mo da hr mi se) :
    strptime fmtIso
      (pad4 y ++ '-' :: pad2 mo ++ '-' :: pad2 da ++ 'T' :: pad2 hr ++ ':' :: pad2 mi ++
        ':' :: (pad2 se ++ []))
      = some ⟨y, mo, da, hr, mi, se, none⟩ := by
  obtain ⟨hy1, hy2, hmo1, hmo2, hda1, hda2, hhr, hmi, hse⟩ := hc
  have hda31 : da ≤ 31 := le_trans hda2 (daysInMonth_le31 y mo)
  have hrun : runToks fmtIso
      (pad4 y ++ '-' :: pad2 mo ++ '-' :: pad2 da ++ 'T' :: pad2 hr ++ ':' :: pad2 mi ++
        ':' :: (pad2 se ++ [])) Fields.init
      = some { year := some y, month := some mo, day := some da, hour24 := some hr,
               minute := some mi, second := some se } := by
    refine step_y hy2 ?_
    refine step_lit (by rfl) ?_
    refine step_m hmo1 hmo2 ?_
    refine step_lit (by rfl) ?_
    refine step_d hda1 hda31 ?_
    refine step_lit (by rfl) ?_
    refine step_h hhr ?_
    refine step_lit (by rfl) ?_
    refine step_min hmi ?_
    refine step_lit (by rfl) ?_
    refine step_s hse ?_
    rfl
  unfold strptime
  rw [hrun]
  exact finalize_full ⟨hy1, hy2, hmo1, hmo2, hda1, hda2, hhr, hmi, hse⟩ rfl

/-- The common `"%d, %Y ..."` 12-hour tail shared by formats 4-7 after the
month token. -/
theorem run_tail47 {y da hr mi : Nat} (hy : y ≤ 9999) (hda1 : 1 ≤ da) (hda31 : da ≤ 31)
    (hmi : mi ≤ 59) {f : Fields} :
    runToks [Tok.ws, .dir .d, .lit ',', .ws, .dir .Y, .ws, .dir .I, .lit ':', .dir .M,
             .ws, .dir .p]
      (' ' :: pad2 da ++ ',' :: ' ' :: pad4 y ++ ' ' :: pad2 (h12of hr) ++ ':' :: pad2 mi ++
        ' ' :: ampmCh hr) f
      = some (setP (decide (12 ≤ hr))
          (setMin mi (setI (h12of hr) (setY y (setD da f))))) := by
  have h12b := h12of_range hr
  refine step_ws (sp_digit (by omega)) ?_
  refine step_d hda1 hda31 ?_
  refine step_lit (by rfl) ?_
  refine step_ws (sp_digit (by omega)) ?_
  refine step_y hy ?_
  refine step_ws (sp_digit (by omega)) ?_
  refine step_i h12b.1 h12b.2 ?_
  refine step_lit (by rfl) ?_
  refine step_min hmi ?_
  refine step_ws_ampm ?_
  exact step_p (by rfl)

/-- The same tail with the literal `"at "` inserted. -/
theorem run_tail47at {y da hr mi : Nat} (hy : y ≤ 9999) (hda1 : 1 ≤ da) (hda31 : da ≤ 31)
    (hmi : mi ≤ 59) {f : Fields} :
    runToks [Tok.ws, .dir .d, .lit ',', .ws, .dir .Y, .ws, .lit 'a', .lit 't', .ws,
             .dir .I, .lit ':', .dir .M, .ws, .dir .p]
      (' ' :: pad2 da ++ ',' :: ' ' :: pad4 y ++ ' ' :: 'a' :: 't' :: ' ' :: pad2 (h12of hr) ++
        ':' :: pad2 mi ++ ' ' :: ampmCh hr) f
      = some (setP (decide (12 ≤ hr))
          (setMin mi (setI (h12of hr) (setY y (setD da f))))) := by
  have h12b := h12of_range hr
  refine step_ws (sp_digit (by omega)) ?_
  refine step_d hda1 hda31 ?_
  refine step_lit (by rfl) ?_
  refine step_ws (sp_digit (by omega)) ?_
  refine step_y hy ?_
  refine step_ws (show isSpacePy 'a' = false from rfl) ?_
  refine step_lit (by rfl) ?_
  refine step_lit (by rfl) ?_
  refine step_ws (sp_digit (by omega)) ?_
  refine step_i h12b.1 h12b.2 ?_
  refine step_lit (by rfl) ?_
  refine step_min hmi ?_
  refine step_ws_ampm ?_
  exact step_p (by rfl)

theorem run_fmt4 {y mo da hr mi : Nat} (hc : CompOK y mo da hr mi 0) :
    strptime fmtAbbr
      (abbrCap mo ++ (' ' :: pad2 da ++ ',' :: ' ' :: pad4 y ++ ' ' :: pad2 (h12of hr) ++
        ':' :: pad2 mi ++ ' ' :: ampmCh hr))
      = some ⟨y, mo, da, hr, mi, 0, none⟩ := by
  obtain ⟨hy1, hy2, hmo1, hmo2, hda1, hda2, hhr, hmi, _⟩ := hc
  have hda31 : da ≤ 31 := le_trans hda2 (daysInMonth_le31 y mo)
  have hrun : runToks fmtAbbr
      (abbrCap mo ++ (' ' :: pad2 da ++ ',' :: ' ' :: pad4 y ++ ' ' :: pad2 (h12of hr) ++
        ':' :: pad2 mi ++ ' ' :: ampmCh hr)) Fields.init
      = some { year := some y, month := some mo, day := some da,
               hour12 := some (h12of hr), pm := some (decide (12 ≤ hr)),
               minute := some mi } := by
    refine step_b hmo1 hmo2 ?_
    exact run_tail47 hy2 hda1 hda31 hmi
  unfold strptime
  rw [hrun]
  exact finalize_h12 ⟨hy1, hy2, hmo1, hmo2, hda1, hda2, hhr, hmi⟩

theorem run_fmt5 {y mo da hr mi : Nat} (hc : CompOK y mo da hr mi 0) :
    strptime fmtAbbrAt
      (abbrCap mo ++ (' ' :: pad2 da ++ ',' :: ' ' :: pad4 y ++ ' ' :: 'a' :: 't' :: ' ' ::
        pad2 (h12of hr) ++ ':' :: pad2 mi ++ ' ' :: ampmCh hr))
      = some ⟨y, mo, da, hr, mi, 0, none⟩ := by
  obtain ⟨hy1, hy2, hmo1, hmo2, hda1, hda2, hhr, hmi, _⟩ := hc
  have hda31 : da ≤ 31 := le_trans hda2 (daysInMonth_le31 y mo)
  have hrun : runToks fmtAbbrAt
      (abbrCap mo ++ (' ' :: pad2 da ++ ',' :: ' ' :: pad4 y ++ ' ' :: 'a' :: 't' :: ' ' ::
        pad2 (h12of hr) ++ ':' :: pad2 mi ++ ' ' :: ampmCh hr)) Fields.init
      = some { year := some y, month := some mo, day := some da,
               hour12 := some (h12of hr), pm := some (decide (12 ≤ hr)),
               minute := some mi } := by
    refine step_b hmo1 hmo2 ?_
    exact run_tail47at hy2 hda1 hda31 hmi
  unfold strptime
  rw [hrun]
  exact finalize_h12 ⟨hy1, hy2, hmo1, hmo2, hda1, hda2, hhr, hmi⟩

theorem run_fmt6 {y mo da hr mi : Nat} (hc : CompOK y mo da hr mi 0) :
    strptime fmtFull
      (fullCap mo ++ (' ' :: pad2 da ++ ',' :: ' ' :: pad4 y ++ ' ' :: pad2 (h12of hr) ++
        ':' :: pad2 mi ++ ' ' :: ampmCh hr))
      = some ⟨y, mo, da, hr, mi, 0, none⟩ := by
  obtain ⟨hy1, hy2, hmo1, hmo2, hda1, hda2, hhr, hmi, _⟩ := hc
  have hda31 : da ≤ 31 := le_trans hda2 (daysInMonth_le31 y mo)
  have hrun : runToks fmtFull
      (fullCap mo ++ (' ' :: pad2 da ++ ',' :: ' ' :: pad4 y ++ ' ' :: pad2 (h12of hr) ++
        ':' :: pad2 mi ++ ' ' :: ampmCh hr)) Fields.init
      = some { year := some y, month := some mo, day := some da,
               hour12 := some (h12of hr), pm := some (decide (12 ≤ hr)),
               minute := some mi } := by
    refine step_bb hmo1 hmo2 ?_
    exact run_tail47 hy2 hda1 hda31 hmi
  unfold strptime
  rw [hrun]
  exact finalize_h12 ⟨hy1, hy2, hmo1, hmo2, hda1, hda2, hhr, hmi⟩

theorem run_fmt7 {y mo da hr mi : Nat} (hc : CompOK y mo da hr mi 0) :
    strptime fmtFullAt
      (fullCap mo ++ (' ' :: pad2 da ++ ',' :: ' ' :: pad4 y ++ ' ' :: 'a' :: 't' :: ' ' ::
        pad2 (h12of hr) ++ ':' :: pad2 mi ++ ' ' :: ampmCh hr))
      = some ⟨y, mo, da, hr, mi, 0, none⟩ := by
  obtain ⟨hy1, hy2, hmo1, hmo2, hda1, hda2, hhr, hmi, _⟩ := hc
  have hda31 : da ≤ 31 := le_trans hda2 (daysInMonth_le31 y mo)
  have hrun : runToks fmtFullAt
      (fullCap mo ++ (' ' :: pad2 da ++ ',' :: ' ' :: pad4 y ++ ' ' :: 'a' :: 't' :: ' ' ::
        pad2 (h12of hr) ++ ':' :: pad2 mi ++ ' ' :: ampmCh hr)) Fields.init
      = some { year := some y, month := some mo, day := some da,
               hour12 := some (h12of hr), pm := some (decide (12 ≤ hr)),
               minute := some mi } := by
    refine step_bb hmo1 hmo2 ?_
    exact run_tail47at hy2 hda1 hda31 hmi
  unfold strptime
  rw [hrun]
  exact finalize_h12 ⟨hy1, hy2, hmo1, hmo2, hda1, hda2, hhr, hmi⟩

theorem run_fmt8 {y mo da hr mi : Nat} (hc : CompOK y mo da hr mi 0) :
    strptime fmtSlash
      (pad2 mo ++ '/' :: pad2 da ++ '/' :: pad4 y ++ ' ' :: pad2 (h12of hr) ++
        ':' :: pad2 mi ++ ' ' :: ampmCh hr)
      = some ⟨y, mo, da, hr, mi, 0, none⟩ := by
  obtain ⟨hy1, hy2, hmo1, hmo2, hda1, hda2, hhr, hmi, _⟩ := hc
  have hda31 : da ≤ 31 := le_trans hda2 (daysInMonth_le31 y mo)
  have hrun : runToks fmtSlash
      (pad2 mo ++ '/' :: pad2 da ++ '/' :: pad4 y ++ ' ' :: pad2 (h12of hr) ++
        ':' :: pad2 mi ++ ' ' :: ampmCh hr) Fields.init
      = some { year := some y, month := some mo, day := some da,
               hour12 := some (h12of hr), pm := some (decide (12 ≤ hr)),
               minute := some mi } := by
    have h12b := h12of_range hr
    refine step_m hmo1 hmo2 ?_
    refine step_lit (by rfl) ?_
    refine step_d hda1 hda31 ?_
    refine step_lit (by rfl) ?_
    refine step_y hy2 ?_
    refine step_ws (sp_digit (by omega)) ?_
    refine step_i h12b.1 h12b.2 ?_
    refine step_lit (by rfl) ?_
    refine step_min hmi ?_
    refine step_ws_ampm ?_
    exact step_p (by rfl)
  unfold strptime
  rw [hrun]
  exact finalize_h12 ⟨hy1, hy2, hmo1, hmo2, hda1, hda2, hhr, hmi⟩

/-! ### Per-format failure runs: which formats reject which renders -/

/-- A `\s+` token fails outright on a non-space head. -/
theorem fail_ws {c : Char} (hc : isSpacePy c = false) {ts : List Tok} {r : List Char}
    {f : Fields} : runToks (Tok.ws :: ts) (c :: r) f = none :=
  runToks_fail (cands_ws_fail hc r)

/-- A punctuation literal fails on a digit head. -/
theorem fail_lit_digit {c : Char} {k : Nat} (hk : k < 10)
    (hc : c = '-' ∨ c = ':' ∨ c = 'T' ∨ c = '/' ∨ c = ',' ∨ c = 'a')
    {ts : List Tok} {r : List Char} {f : Fields} :
    runToks (Tok.lit c :: ts) (digitChar k :: r) f = none :=
  runToks_fail (cands_lit_ne (lower_lit_digit hk hc) r)

/-- `%Y` fails on a non-digit head. -/
theorem fail_Y_head {c : Char} (h : digitVal c = none) {ts : List Tok} {r : List Char}
    {f : Fields} : runToks (Tok.dir .Y :: ts) (c :: r) f = none :=
  runToks_fail (cands_y_fail h r)

/-- `%Y` fails when the slash of `%m/%d/%Y` arrives as third character. -/
theorem cands_y_slash {a b : Nat} (ha : a < 10) (hb : b < 10) (c : Char) (r : List Char) :
    Tok.cands (.dir .Y) (digitChar a :: digitChar b :: '/' :: c :: r) = [] := by
  have d0 : ∀ k, k < 10 → digitVal (digitChar k) = some k := by decide
  show ((match digitVal (digitChar a), digitVal (digitChar b), digitVal '/', digitVal c with
        | some a2, some b2, some c2, some e2 => [(((a2 * 10 + b2) * 10 + c2) * 10 + e2, r)]
        | _, _, _, _ => []) : List (Nat × List Char)).map (fun p => (setY p.1, p.2)) = []
  rw [d0 a ha, d0 b hb]
  rfl

/-- `%Y` has no match on the head of the `%m/%d/%Y` render. -/
theorem fail_Y_slash {a b : Nat} (ha : a < 10) (hb : b < 10) {c : Char} {ts : List Tok}
    {r : List Char} {f : Fields} :
    runToks (Tok.dir .Y :: ts) (digitChar a :: digitChar b :: '/' :: c :: r) f = none :=
  runToks_fail (cands_y_slash ha hb c r)

/-- A case-insensitive prefix match dies on its first mismatch. -/
theorem stripPrefixCI_cons_ne {c x : Char} (h : lowerEqChar c x = false)
    {cs s : List Char} : stripPrefixCI (c :: cs) (x :: s) = none := by
  show (if lowerEqChar c x then stripPrefixCI cs s else none) = none
  rw [h]
  rfl

/-- A name alternation has no candidates when every name opens with a
character mismatching the head. -/
theorem nameCands_nil (names : List String) {x : Char} {r : List Char}
    (h : ∀ nm ∈ names, ∃ c cs, nm.data = c :: cs ∧ lowerEqChar c x = false) :
    ∀ i, nameCands names i (x :: r) = [] := by
  induction names with
  | nil => intro i; rfl
  | cons nm rest ih =>
    intro i
    obtain ⟨c, cs, hdata, hne⟩ := h nm (List.mem_cons_self nm rest)
    show (match stripPrefixCI nm.data (x :: r) with
          | some r2 => (i, r2) :: nameCands rest (i + 1) (x :: r)
          | none => nameCands rest (i + 1) (x :: r)) = []
    rw [hdata, stripPrefixCI_cons_ne hne]
    exact ih (fun nm2 hm => h nm2 (List.mem_cons_of_mem nm hm)) (i + 1)

/-- `%b` has no candidates on a digit head. -/
theorem cands_b_digit {k : Nat} (hk : k < 10) (r : List Char) :
    Tok.cands (.dir .b) (digitChar k :: r) = [] := by
  have key : ∀ x, x < 10 →
      lowerEqChar 'j' (digitChar x) = false ∧ lowerEqChar 'f' (digitChar x) = false ∧
      lowerEqChar 'm' (digitChar x) = false ∧ lowerEqChar 'a' (digitChar x) = false ∧
      lowerEqChar 's' (digitChar x) = false ∧ lowerEqChar 'o' (digitChar x) = false ∧
      lowerEqChar 'n' (digitChar x) = false ∧ lowerEqChar 'd' (digitChar x) = false := by
    decide
  obtain ⟨hj, hf, hm, ha, hs, ho, hn, hd⟩ := key k hk
  have hnames : ∀ nm ∈ monthAbbrs, ∃ c cs, nm.data = c :: cs ∧
      lowerEqChar c (digitChar k) = false := by
    intro nm hm2
    simp only [monthAbbrs, List.mem_cons, List.not_mem_nil, or_false] at hm2
    rcases hm2 with rfl | rfl | rfl | rfl | rfl | rfl | rfl | rfl | rfl | rfl | rfl | rfl
    · exact ⟨'j', _, rfl, hj⟩
    · exact ⟨'f', _, rfl, hf⟩
    · exact ⟨'m', _, rfl, hm⟩
    · exact ⟨'a', _, rfl, ha⟩
    · exact ⟨'m', _, rfl, hm⟩
    · exact ⟨'j', _, rfl, hj⟩
    · exact ⟨'j', _, rfl, hj⟩
    · exact ⟨'a', _, rfl, ha⟩
    · exact ⟨'s', _, rfl, hs⟩
    · exact ⟨'o', _, rfl, ho⟩
    · exact ⟨'n', _, rfl, hn⟩
    · exact ⟨'d', _, rfl, hd⟩
  show (nameCands monthAbbrs 1 (digitChar k :: r)).map (fun p => (setMo p.1, p.2)) = []
  rw [nameCands_nil monthAbbrs hnames 1]
  rfl

/-- `%B` has no candidates on a digit head. -/
theorem cands_bb_digit {k : Nat} (hk : k < 10) (r : List Char) :
    Tok.cands (.dir .B) (digitChar k :: r) = [] := by
  have key : ∀ x, x < 10 →
      lowerEqChar 'j' (digitChar x) = false ∧ lowerEqChar 'f' (digitChar x) = false ∧
      lowerEqChar 'm' (digitChar x) = false ∧ lowerEqChar 'a' (digitChar x) = false ∧
      lowerEqChar 's' (digitChar x) = false ∧ lowerEqChar 'o' (digitChar x) = false ∧
      lowerEqChar 'n' (digitChar x) = false ∧ lowerEqChar 'd' (digitChar x) = false := by
    decide
  obtain ⟨hj, hf, hm, ha, hs, ho, hn, hd⟩ := key k hk
  have hnames : ∀ nm ∈ monthFulls, ∃ c cs, nm.data = c :: cs ∧
      lowerEqChar c (digitChar k) = false := by
    intro nm hm2
    simp only [monthFulls, List.mem_cons, List.not_mem_nil, or_false] at hm2
    rcases hm2 with rfl | rfl | rfl | rfl | rfl | rfl | rfl | rfl | rfl | rfl | rfl | rfl
    · exact ⟨'j', _, rfl, hj⟩
    · exact ⟨'f', _, rfl, hf⟩
    · exact ⟨'m', _, rfl, hm⟩
    · exact ⟨'a', _, rfl, ha⟩
    · exact ⟨'m', _, rfl, hm⟩
    · exact ⟨'j', _, rfl, hj⟩
    · exact ⟨'j', _, rfl, hj⟩
    · exact ⟨'a', _, rfl, ha⟩
    · exact ⟨'s', _, rfl, hs⟩
    · exact ⟨'o', _, rfl, ho⟩
    · exact ⟨'n', _, rfl, hn⟩
    · exact ⟨'d', _, rfl, hd⟩
  show (nameCands monthFulls 1 (digitChar k :: r)).map (fun p => (setMo p.1, p.2)) = []
  rw [nameCands_nil monthFulls hnames 1]
  rfl

/-- `%b` fails on a digit head. -/
theorem fail_b_digit {k : Nat} (hk : k < 10) {ts : List Tok} {r : List Char}
    {f : Fields} : runToks (Tok.dir .b :: ts) (digitChar k :: r) f = none :=
  runToks_fail (cands_b_digit hk r)

/-- `%B` fails on a digit head. -/
theorem fail_bb_digit {k : Nat} (hk : k < 10) {ts : List Tok} {r : List Char}
    {f : Fields} : runToks (Tok.dir .B :: ts) (digitChar k :: r) f = none :=
  runToks_fail (cands_bb_digit hk r)

/-- `%I` has no candidates on the literal `at`. -/
theorem fail_I_at {ts : List Tok} {r : List Char} {f : Fields} :
    runToks (Tok.dir .I :: ts) ('a' :: 't' :: r) f = none :=
  runToks_fail rfl

/-- The `", %Y"` fragment of the no-`at` formats rejects `%I` standing at
the literal `at` of an `at`-carrying render. -/
theorem fail_comma_Y_at {y : Nat} (hy : y ≤ 9999) {ts : List Tok} {r : List Char}
    {f : Fields} :
    runToks (Tok.lit ',' :: Tok.ws :: Tok.dir .Y :: Tok.ws :: Tok.dir .I :: ts)
      (',' :: ' ' :: pad4 y ++ ' ' :: 'a' :: 't' :: r) f = none := by
  refine runToks_single_fail (cands_lit_eq (by rfl) _) ?_
  refine runToks_single_fail (cands_ws_one (sp_digit (by omega)) _) ?_
  refine runToks_single_fail (cands_y hy _) ?_
  refine runToks_single_fail (cands_ws_one (by rfl) _) ?_
  exact fail_I_at

/-- The shared 12-hour tail of formats 4 and 6 rejects the `at`-carrying
renders of formats 5 and 7. -/
theorem fail_tail47_at {y da : Nat} (hy : y ≤ 9999) (hd1 : 1 ≤ da) (hd2 : da ≤ 31)
    {r : List Char} {f : Fields} :
    runToks [Tok.ws, .dir .d, .lit ',', .ws, .dir .Y, .ws, .dir .I, .lit ':', .dir .M,
             .ws, .dir .p]
      (' ' :: pad2 da ++ ',' :: ' ' :: pad4 y ++ ' ' :: 'a' :: 't' :: r) f = none := by
  refine runToks_single_fail (cands_ws_one (sp_digit (by omega)) _) ?_
  have hc := cands_d hd1 hd2 (',' :: ' ' :: pad4 y ++ ' ' :: 'a' :: 't' :: r)
  rcases Nat.lt_or_ge da 10 with hlt | hge
  · rw [if_pos hlt] at hc
    refine runToks_single_fail hc ?_
    exact fail_comma_Y_at hy
  · rw [if_neg (by omega)] at hc
    refine runToks_two_fail hc ?_ ?_
    · exact fail_comma_Y_at hy
    · exact fail_lit_digit (by omega) (Or.inr (Or.inr (Or.inr (Or.inr (Or.inl rfl)))))

/-- `%d` then `\s+` fails when a `T` follows the day. -/
theorem fail_d_ws_T {da : Nat} (h1 : 1 ≤ da) (h2 : da ≤ 31) {ts : List Tok}
    {r : List Char} {f : Fields} :
    runToks (Tok.dir .d :: Tok.ws :: ts) (pad2 da ++ 'T' :: r) f = none := by
  have hc := cands_d h1 h2 ('T' :: r)
  rcases Nat.lt_or_ge da 10 with hlt | hge
  · rw [if_pos hlt] at hc
    exact runToks_single_fail hc (fail_ws (by rfl))
  · rw [if_neg (by omega)] at hc
    exact runToks_two_fail hc (fail_ws (by rfl)) (fail_ws (sp_digit (by omega)))

/-- The first format (`%Y-%m-%d %H:%M:%S %z`) rejects any render that puts
a `T` after the day. -/
theorem fail_fmt1_T {y mo da : Nat} (hy : y ≤ 9999) (hm1 : 1 ≤ mo) (hm2 : mo ≤ 12)
    (hd1 : 1 ≤ da) (hd2 : da ≤ 31) {r : List Char} {f : Fields} :
    runToks fmtYmdHmsZ (pad4 y ++ '-' :: pad2 mo ++ '-' :: pad2 da ++ 'T' :: r) f
      = none := by
  refine runToks_single_fail (cands_y hy _) ?_
  refine runToks_single_fail (cands_lit_eq (by rfl) _) ?_
  have hc := cands_m hm1 hm2 ('-' :: pad2 da ++ 'T' :: r)
  rcases Nat.lt_or_ge mo 10 with hlt | hge
  · rw [if_pos hlt] at hc
    refine runToks_single_fail hc ?_
    refine runToks_single_fail (cands_lit_eq (by rfl) _) ?_
    exact fail_d_ws_T hd1 hd2
  · rw [if_neg (by omega)] at hc
    refine runToks_two_fail hc ?_ ?_
    · refine runToks_single_fail (cands_lit_eq (by rfl) _) ?_
      exact fail_d_ws_T hd1 hd2
    · exact fail_lit_digit (by omega) (Or.inl rfl)

/-- `%S%z` rejects a render that ends right after the seconds. -/
theorem fail_S_z {se : Nat} (hs : se ≤ 59) {f : Fields} :
    runToks [Tok.dir .S, Tok.dir .z] (pad2 se ++ []) f = none := by
  refine runToks_two_fail (cands_s hs []) ?_ ?_
  · exact runToks_fail cands_z_nil
  · exact runToks_fail (cands_z_digit (by omega) [])

/-- The second format (`%Y-%m-%dT%H:%M:%S%z`) rejects the offset-less
19-character ISO render. -/
theorem fail_fmt2_noz {y mo da hr mi se : Nat} (hy : y ≤ 9999) (hm1 : 1 ≤ mo)
    (hm2 : mo ≤ 12) (hd1 : 1 ≤ da) (hd2 : da ≤ 31) (hh : hr ≤ 23) (hmi : mi ≤ 59)
    (hs : se ≤ 59) {f : Fields} :
    runToks fmtIsoZ
      (pad4 y ++ '-' :: pad2 mo ++ '-' :: pad2 da ++ 'T' :: pad2 hr ++ ':' :: pad2 mi ++
        ':' :: (pad2 se ++ []))
      f = none := by
  refine runToks_single_fail (cands_y hy _) ?_
  refine runToks_single_fail (cands_lit_eq (by rfl) _) ?_
  have hcm := cands_m hm1 hm2
    ('-' :: pad2 da ++ 'T' :: pad2 hr ++ ':' :: pad2 mi ++ ':' :: (pad2 se ++ []))
  have hmain : ∀ g : Fields,
      runToks [Tok.lit '-', .dir .d, .lit 'T', .dir .H, .lit ':', .dir .M, .lit ':',
               .dir .S, .dir .z]
        ('-' :: pad2 da ++ 'T' :: pad2 hr ++ ':' :: pad2 mi ++ ':' :: (pad2 se ++ []))
        g = none := by
    intro g
    refine runToks_single_fail (cands_lit_eq (by rfl) _) ?_
    have hcd := cands_d hd1 hd2 ('T' :: pad2 hr ++ ':' :: pad2 mi ++ ':' :: (pad2 se ++ []))
    have hrest : ∀ g2 : Fields,
        runToks [Tok.lit 'T', .dir .H, .lit ':', .dir .M, .lit ':', .dir .S, .dir .z]
          ('T' :: pad2 hr ++ ':' :: pad2 mi ++ ':' :: (pad2 se ++ [])) g2 = none := by
      intro g2
      refine runToks_single_fail (cands_lit_eq (by rfl) _) ?_
      refine runToks_two_fail (cands_h hh (':' :: pad2 mi ++ ':' :: (pad2 se ++ []))) ?_ ?_
      · refine runToks_single_fail (cands_lit_eq (by rfl) _) ?_
        refine runToks_two_fail (cands_min hmi (':' :: (pad2 se ++ []))) ?_ ?_
        · refine runToks_single_fail (cands_lit_eq (by rfl) _) ?_
          exact fail_S_z hs
        · exact fail_lit_digit (by omega) (Or.inr (Or.inl rfl))
      · exact fail_lit_digit (by omega) (Or.inr (Or.inl rfl))
    rcases Nat.lt_or_ge da 10 with hlt | hge
    · rw [if_pos hlt] at hcd
      refine runToks_single_fail hcd ?_
      exact hrest _
    · rw [if_neg (by omega)] at hcd
      refine runToks_two_fail hcd ?_ ?_
      · exact hrest _
      · exact fail_lit_digit (by omega) (Or.inr (Or.inr (Or.inl rfl)))
  rcases Nat.lt_or_ge mo 10 with hlt | hge
  · rw [if_pos hlt] at hcm
    refine runToks_single_fail hcm ?_
    exact hmain _
  · rw [if_neg (by omega)] at hcm
    refine runToks_two_fail hcm ?_ ?_
    · exact hmain _
    · exact fail_lit_digit (by omega) (Or.inl rfl)

/-- `%b` then `\s+` dies inside a full month name other than May: the
abbreviation matches a strict prefix and a letter follows. -/
theorem fail_b_ws_full {m : Nat} (h1 : 1 ≤ m) (h2 : m ≤ 12) (h5 : m ≠ 5)
    {ts : List Tok} {r : List Char} {f : Fields} :
    runToks (Tok.dir .b :: Tok.ws :: ts) (fullCap m ++ r) f = none := by
  interval_cases m
  · refine runToks_single_fail (by rfl) ?_
    exact fail_ws (by rfl)
  · refine runToks_single_fail (by rfl) ?_
    exact fail_ws (by rfl)
  · refine runToks_single_fail (by rfl) ?_
    exact fail_ws (by rfl)
  · refine runToks_single_fail (by rfl) ?_
    exact fail_ws (by rfl)
  · exact absurd rfl h5
  · refine runToks_single_fail (by rfl) ?_
    exact fail_ws (by rfl)
  · refine runToks_single_fail (by rfl) ?_
    exact fail_ws (by rfl)
  · refine runToks_single_fail (by rfl) ?_
    exact fail_ws (by rfl)
  · refine runToks_single_fail (by rfl) ?_
    exact fail_ws (by rfl)
  · refine runToks_single_fail (by rfl) ?_
    exact fail_ws (by rfl)
  · refine runToks_single_fail (by rfl) ?_
    exact fail_ws (by rfl)
  · refine runToks_single_fail (by rfl) ?_
    exact fail_ws (by rfl)

/-- Format 4 (`%b %d, %Y %I:%M %p`) rejects the `at`-carrying abbreviated
render. -/
theorem fail_fmt4_at {y mo da : Nat} (hy : y ≤ 9999) (hm1 : 1 ≤ mo) (hm2 : mo ≤ 12)
    (hd1 : 1 ≤ da) (hd2 : da ≤ 31) {r : List Char} {f : Fields} :
    runToks fmtAbbr (abbrCap mo ++ (' ' :: pad2 da ++ ',' :: ' ' :: pad4 y ++
      ' ' :: 'a' :: 't' :: r)) f = none := by
  refine runToks_single_fail (cands_b hm1 hm2 _) ?_
  exact fail_tail47_at hy hd1 hd2

/-- Format 6 (`%B %d, %Y %I:%M %p`) rejects the `at`-carrying full-name
render. -/
theorem fail_fmt6_at {y mo da : Nat} (hy : y ≤ 9999) (hm1 : 1 ≤ mo) (hm2 : mo ≤ 12)
    (hd1 : 1 ≤ da) (hd2 : da ≤ 31) {r : List Char} {f : Fields} :
    runToks fmtFull (fullCap mo ++ (' ' :: pad2 da ++ ',' :: ' ' :: pad4 y ++
      ' ' :: 'a' :: 't' :: r)) f = none := by
  refine runToks_single_fail (cands_bb hm1 hm2 _) ?_
  exact fail_tail47_at hy hd1 hd2

/-! ### Assembling the format cascade -/

/-- A failed token run makes `strptime` fail. -/
theorem strptime_none {fmt : List Tok} {s : List Char}
    (h : runToks fmt s Fields.init = none) : strptime fmt s = none := by
  unfold strptime
  rw [h]
  rfl

/-- `strptime` succeeding on the head format ends the loop. -/
theorem tryFmts_cons_some {fmt : List Tok} {fs : List (List Tok)} {s : List Char}
    {dt : Datetime} (h : strptime fmt s = some dt) :
    tryFmts (fmt :: fs) s = some dt := by
  unfold tryFmts
  rw [h]

/-- A failing head format passes control to the rest of the list. -/
theorem tryFmts_cons_none {fmt : List Tok} {fs : List (List Tok)} {s : List Char}
    (h : strptime fmt s = none) : tryFmts (fmt :: fs) s = tryFmts fs s := by
  conv_lhs => unfold tryFmts
  rw [h]

/-- All three year-leading formats reject a letter-headed input, leaving
the month-name and slash formats. -/
theorem fail_Y_formats {c : Char} (hdv : digitVal c = none) {r : List Char}
    {dt : Datetime}
    (h : tryFmts [fmtAbbr, fmtAbbrAt, fmtFull, fmtFullAt, fmtSlash] (c :: r) = some dt) :
    tryFmts fmtsWithYear (c :: r) = some dt := by
  refine (tryFmts_cons_none (strptime_none (fail_Y_head hdv))).trans ?_
  refine (tryFmts_cons_none (strptime_none (fail_Y_head hdv))).trans ?_
  refine (tryFmts_cons_none (strptime_none (fail_Y_head hdv))).trans ?_
  exact h

/-- Keeping the right edge: consing onto a trim-invariant list. -/
theorem kt_cons (c : Char) {p : Char → Bool} {t : List Char}
    (h : dropTrailing p t = t ∧ t ≠ []) :
    dropTrailing p (c :: t) = c :: t ∧ c :: t ≠ [] :=
  ⟨dropTrailing_cons c h.1 h.2, List.cons_ne_nil _ _⟩

/-- Keeping the right edge: appending onto a trim-invariant list. -/
theorem kt_append (l₁ : List Char) {p : Char → Bool} {l₂ : List Char}
    (h : dropTrailing p l₂ = l₂ ∧ l₂ ≠ []) :
    dropTrailing p (l₁ ++ l₂) = l₁ ++ l₂ ∧ l₁ ++ l₂ ≠ [] :=
  ⟨dropTrailing_append l₁ h.1 h.2, fun hc => h.2 (List.append_eq_nil.mp hc).2⟩

/-- A zero-padded pair keeps the right edge. -/
theorem kt_pad2 {k : Nat} (h : k < 100) :
    dropTrailing isSpacePy (pad2 k) = pad2 k ∧ pad2 k ≠ [] :=
  ⟨dropTrailing_pad2 h, pad2_ne_nil⟩

/-- The AM/PM marker keeps the right edge. -/
theorem kt_ampm {h : Nat} :
    dropTrailing isSpacePy (ampmCh h) = ampmCh h ∧ ampmCh h ≠ [] :=
  ⟨dropTrailing_ampm, ampm_ne_nil⟩

/-- A rendered offset keeps the right edge. -/
theorem kt_tz {o : Int} {z : List Char} (hz : renderTZ o = some z) :
    dropTrailing isSpacePy z = z ∧ z ≠ [] := by
  unfold renderTZ at hz
  split at hz
  · injection hz with hz
    subst hz
    exact kt_append _ (kt_pad2 (by omega))
  · exact Option.noConfusion hz

/-- A list with a non-space head survives the left trim. -/
theorem dropWhile_keep {c : Char} (hc : isSpacePy c = false) {t r : List Char}
    (he : t = c :: r) : List.dropWhile isSpacePy t = t := by
  rw [he]
  exact dropWhile_nonspace hc r

/-- The first character of a month abbreviation: a non-digit non-space
letter. -/
theorem abbr_head {m : Nat} (h1 : 1 ≤ m) (h2 : m ≤ 12) :
    ∃ c t, abbrCap m = c :: t ∧ digitVal c = none ∧ isSpacePy c = false := by
  interval_cases m <;> exact ⟨_, _, rfl, rfl, rfl⟩

/-- The first character of a full month name: a non-digit non-space
letter. -/
theorem full_head {m : Nat} (h1 : 1 ≤ m) (h2 : m ≤ 12) :
    ∃ c t, fullCap m = c :: t ∧ digitVal c = none ∧ isSpacePy c = false := by
  interval_cases m <;> exact ⟨_, _, rfl, rfl, rfl⟩

/-- `parse_date` on a non-empty, trim-invariant string on which one of the
year-carrying formats fires. -/
theorem parse_date_eq {L : List Char} (ycur : Nat)
    (hh : ∃ c r, L = c :: r ∧ isSpacePy c = false)
    (hk : dropTrailing isSpacePy L = L ∧ L ≠ [])
    {dt : Datetime} (h : tryFmts fmtsWithYear L = some dt) :
    parse_date (some (String.mk L)) ycur = .ok (some dt) := by
  obtain ⟨c, r, he, hc⟩ := hh
  unfold parse_date
  dsimp only
  rw [if_neg hk.2]
  unfold trimL
  rw [dropWhile_keep hc he, hk.1, h]

/-! ### Per-format soundness of the full `parse_date` cascade -/

theorem sound_fmt1 {y mo da hr mi se : Nat} {o : Int} {z : List Char} (ycur : Nat)
    (hc : CompOK y mo da hr mi se) (hz : renderTZ o = some z) :
    parse_date (some (String.mk
      (pad4 y ++ '-' :: pad2 mo ++ '-' :: pad2 da ++ ' ' :: pad2 hr ++ ':' :: pad2 mi ++
        ':' :: pad2 se ++ ' ' :: z))) ycur
      = .ok (some ⟨y, mo, da, hr, mi, se, some o⟩) := by
  obtain ⟨hy1, hy2, hm1, hm2, hd1, hd2, hh, hmi, hse⟩ := hc
  refine parse_date_eq ycur ?_ ?_ ?_
  · exact ⟨_, _, rfl, sp_digit (by omega)⟩
  · exact kt_append _ (kt_cons _ (kt_tz hz))
  · exact tryFmts_cons_some (run_fmt1 ⟨hy1, hy2, hm1, hm2, hd1, hd2, hh, hmi, hse⟩ hz)

theorem sound_fmt2 {y mo da hr mi se : Nat} {o : Int} {z : List Char} (ycur : Nat)
    (hc : CompOK y mo da hr mi se) (hz : renderTZ o = some z) :
    parse_date (some (String.mk
      (pad4 y ++ '-' :: pad2 mo ++ '-' :: pad2 da ++ 'T' :: pad2 hr ++ ':' :: pad2 mi ++
        ':' :: (pad2 se ++ z)))) ycur
      = .ok (some ⟨y, mo, da, hr, mi, se, some o⟩) := by
  obtain ⟨hy1, hy2, hm1, hm2, hd1, hd2, hh, hmi, hse⟩ := hc
  have hd31 : da ≤ 31 := le_trans hd2 (daysInMonth_le31 y mo)
  refine parse_date_eq ycur ?_ ?_ ?_
  · exact ⟨_, _, rfl, sp_digit (by omega)⟩
  · exact kt_append _ (kt_cons _ (kt_append _ (kt_tz hz)))
  · refine (tryFmts_cons_none (strptime_none (fail_fmt1_T hy2 hm1 hm2 hd1 hd31))).trans ?_
    exact tryFmts_cons_some (run_fmt2 ⟨hy1, hy2, hm1, hm2, hd1, hd2, hh, hmi, hse⟩ hz)

theorem sound_fmt3 {y mo da hr mi se : Nat} (ycur : Nat)
    (hc : CompOK y mo da hr mi se) :
    parse_date (some (String.mk
      (pad4 y ++ '-' :: pad2 mo ++ '-' :: pad2 da ++ 'T' :: pad2 hr ++ ':' :: pad2 mi ++
        ':' :: (pad2 se ++ [])))) ycur
      = .ok (some ⟨y, mo, da, hr, mi, se, none⟩) := by
  obtain ⟨hy1, hy2, hm1, hm2, hd1, hd2, hh, hmi, hse⟩ := hc
  have hd31 : da ≤ 31 := le_trans hd2 (daysInMonth_le31 y mo)
  have h30 : dropTrailing isSpacePy (pad2 se ++ []) = pad2 se ++ []
      ∧ pad2 se ++ ([] : List Char) ≠ [] := by
    rw [List.append_nil]
    exact kt_pad2 (by omega)
  refine parse_date_eq ycur ?_ ?_ ?_
  · exact ⟨_, _, rfl, sp_digit (by omega)⟩
  · exact kt_append _ (kt_cons _ h30)
  · refine (tryFmts_cons_none (strptime_none (fail_fmt1_T hy2 hm1 hm2 hd1 hd31))).trans ?_
    refine (tryFmts_cons_none
      (strptime_none (fail_fmt2_noz hy2 hm1 hm2 hd1 hd31 hh hmi hse))).trans ?_
    exact tryFmts_cons_some (run_fmt3 ⟨hy1, hy2, hm1, hm2, hd1, hd2, hh, hmi, hse⟩)

theorem sound_fmt4 {y mo da hr mi : Nat} (ycur : Nat) (hc : CompOK y mo da hr mi 0) :
    parse_date (some (String.mk
      (abbrCap mo ++ (' ' :: pad2 da ++ ',' :: ' ' :: pad4 y ++ ' ' :: pad2 (h12of hr) ++
        ':' :: pad2 mi ++ ' ' :: ampmCh hr)))) ycur
      = .ok (some ⟨y, mo, da, hr, mi, 0, none⟩) := by
  obtain ⟨hy1, hy2, hm1, hm2, hd1, hd2, hh, hmi, _⟩ := hc
  obtain ⟨c, t, heq, hdv, hsp⟩ := abbr_head hm1 hm2
  refine parse_date_eq ycur ?_ ?_ ?_
  · exact ⟨c, _, by rw [heq, List.cons_append], hsp⟩
  · exact kt_append _ (kt_append _ (kt_cons _ kt_ampm))
  · rw [heq, List.cons_append]
    refine fail_Y_formats hdv ?_
    rw [← List.cons_append, ← heq]
    exact tryFmts_cons_some (run_fmt4 ⟨hy1, hy2, hm1, hm2, hd1, hd2, hh, hmi, by omega⟩)

theorem sound_fmt5 {y mo da hr mi : Nat} (ycur : Nat) (hc : CompOK y mo da hr mi 0) :
    parse_date (some (String.mk
      (abbrCap mo ++ (' ' :: pad2 da ++ ',' :: ' ' :: pad4 y ++ ' ' :: 'a' :: 't' :: ' ' ::
        pad2 (h12of hr) ++ ':' :: pad2 mi ++ ' ' :: ampmCh hr)))) ycur
      = .ok (some ⟨y, mo, da, hr, mi, 0, none⟩) := by
  obtain ⟨hy1, hy2, hm1, hm2, hd1, hd2, hh, hmi, _⟩ := hc
  have hd31 : da ≤ 31 := le_trans hd2 (daysInMonth_le31 y mo)
  obtain ⟨c, t, heq, hdv, hsp⟩ := abbr_head hm1 hm2
  refine parse_date_eq ycur ?_ ?_ ?_
  · exact ⟨c, _, by rw [heq, List.cons_append], hsp⟩
  · exact kt_append _ (kt_append _ (kt_cons _ kt_ampm))
  · rw [heq, List.cons_append]
    refine fail_Y_formats hdv ?_
    rw [← List.cons_append, ← heq]
    refine (tryFmts_cons_none (strptime_none (fail_fmt4_at hy2 hm1 hm2 hd1 hd31))).trans ?_
    exact tryFmts_cons_some (run_fmt5 ⟨hy1, hy2, hm1, hm2, hd1, hd2, hh, hmi, by omega⟩)

theorem sound_fmt6 {y mo da hr mi : Nat} (ycur : Nat) (hc : CompOK y mo da hr mi 0) :
    parse_date (some (String.mk
      (fullCap mo ++ (' ' :: pad2 da ++ ',' :: ' ' :: pad4 y ++ ' ' :: pad2 (h12of hr) ++
        ':' :: pad2 mi ++ ' ' :: ampmCh hr)))) ycur
      = .ok (some ⟨y, mo, da, hr, mi, 0, none⟩) := by
  obtain ⟨hy1, hy2, hm1, hm2, hd1, hd2, hh, hmi, _⟩ := hc
  rcases eq_or_ne mo 5 with hm5 | hm5
  · subst hm5
    refine parse_date_eq ycur ?_ ?_ ?_
    · exact ⟨_, _, rfl, by rfl⟩
    · exact kt_append _ (kt_append _ (kt_cons _ kt_ampm))
    · refine fail_Y_formats (c := 'M') rfl ?_
      exact tryFmts_cons_some
        (run_fmt4 ⟨hy1, hy2, by omega, by omega, hd1, hd2, hh, hmi, by omega⟩)
  · obtain ⟨c, t, heq, hdv, hsp⟩ := full_head hm1 hm2
    refine parse_date_eq ycur ?_ ?_ ?_
    · exact ⟨c, _, by rw [heq, List.cons_append], hsp⟩
    · exact kt_append _ (kt_append _ (kt_cons _ kt_ampm))
    · rw [heq, List.cons_append]
      refine fail_Y_formats hdv ?_
      rw [← List.cons_append, ← heq]
      refine (tryFmts_cons_none (strptime_none (fail_b_ws_full hm1 hm2 hm5))).trans ?_
      refine (tryFmts_cons_none (strptime_none (fail_b_ws_full hm1 hm2 hm5))).trans ?_
      exact tryFmts_cons_some (run_fmt6 ⟨hy1, hy2, hm1, hm2, hd1, hd2, hh, hmi, by omega⟩)

theorem sound_fmt7 {y mo da hr mi : Nat} (ycur : Nat) (hc : CompOK y mo da hr mi 0) :
    parse_date (some (String.mk
      (fullCap mo ++ (' ' :: pad2 da ++ ',' :: ' ' :: pad4 y ++ ' ' :: 'a' :: 't' :: ' ' ::
        pad2 (h12of hr) ++ ':' :: pad2 mi ++ ' ' :: ampmCh hr)))) ycur
      = .ok (some ⟨y, mo, da, hr, mi, 0, none⟩) := by
  obtain ⟨hy1, hy2, hm1, hm2, hd1, hd2, hh, hmi, _⟩ := hc
  have hd31 : da ≤ 31 := le_trans hd2 (daysInMonth_le31 y mo)
  rcases eq_or_ne mo 5 with hm5 | hm5
  · subst hm5
    refine parse_date_eq ycur ?_ ?_ ?_
    · exact ⟨_, _, rfl, by rfl⟩
    · exact kt_append _ (kt_append _ (kt_cons _ kt_ampm))
    · refine fail_Y_formats (c := 'M') rfl ?_
      refine (tryFmts_cons_none
        (strptime_none (fail_fmt4_at hy2 (show 1 ≤ 5 by omega) (show 5 ≤ 12 by omega)
          hd1 hd31))).trans ?_
      exact tryFmts_cons_some
        (run_fmt5 ⟨hy1, hy2, by omega, by omega, hd1, hd2, hh, hmi, by omega⟩)
  · obtain ⟨c, t, heq, hdv, hsp⟩ := full_head hm1 hm2
    refine parse_date_eq ycur ?_ ?_ ?_
    · exact ⟨c, _, by rw [heq, List.cons_append], hsp⟩
    · exact kt_append _ (kt_append _ (kt_cons _ kt_ampm))
    · rw [heq, List.cons_append]
      refine fail_Y_formats hdv ?_
      rw [← List.cons_append, ← heq]
      refine (tryFmts_cons_none (strptime_none (fail_b_ws_full hm1 hm2 hm5))).trans ?_
      refine (tryFmts_cons_none (strptime_none (fail_b_ws_full hm1 hm2 hm5))).trans ?_
      refine (tryFmts_cons_none
        (strptime_none (fail_fmt6_at hy2 hm1 hm2 hd1 hd31))).trans ?_
      exact tryFmts_cons_some (run_fmt7 ⟨hy1, hy2, hm1, hm2, hd1, hd2, hh, hmi, by omega⟩)

theorem sound_fmt8 {y mo da hr mi : Nat} (ycur : Nat) (hc : CompOK y mo da hr mi 0) :
    parse_date (some (String.mk
      (pad2 mo ++ '/' :: pad2 da ++ '/' :: pad4 y ++ ' ' :: pad2 (h12of hr) ++
        ':' :: pad2 mi ++ ' ' :: ampmCh hr))) ycur
      = .ok (some ⟨y, mo, da, hr, mi, 0, none⟩) := by
  obtain ⟨hy1, hy2, hm1, hm2, hd1, hd2, hh, hmi, _⟩ := hc
  refine parse_date_eq ycur ?_ ?_ ?_
  · exact ⟨_, _, rfl, sp_digit (by omega)⟩
  · exact kt_append _ (kt_cons _ kt_ampm)
  · refine (tryFmts_cons_none
      (strptime_none (fail_Y_slash (by omega) (by omega)))).trans ?_
    refine (tryFmts_cons_none
      (strptime_none (fail_Y_slash (by omega) (by omega)))).trans ?_
    refine (tryFmts_cons_none
      (strptime_none (fail_Y_slash (by omega) (by omega)))).trans ?_
    refine (tryFmts_cons_none (strptime_none (fail_b_digit (by omega)))).trans ?_
    refine (tryFmts_cons_none (strptime_none (fail_b_digit (by omega)))).trans ?_
    refine (tryFmts_cons_none (strptime_none (fail_bb_digit (by omega)))).trans ?_
    refine (tryFmts_cons_none (strptime_none (fail_bb_digit (by omega)))).trans ?_
    exact tryFmts_cons_some (run_fmt8 ⟨hy1, hy2, hm1, hm2, hd1, hd2, hh, hmi, by omega⟩)

/-- Соundness of every render: a string produced for a valid datetime in
any of the eight year-carrying formats parses back to exactly that
datetime, whatever the reference year. -/
theorem render_sound {dt : Datetime} (hv : ValidDT dt) (i : Fin 8) {s : String}
    (hr : renderFmt i dt = some s) (ycur : Nat) :
    parse_date (some s) ycur = .ok (some dt) := by
  obtain ⟨Y2, Mo2, Da2, Hr2, Mi2, Se2, Tz2⟩ := dt
  obtain ⟨hy1, hy2, hm1, hm2, hd1, hd2, hh, hmi, hse⟩ := hv
  obtain ⟨iv, hilt⟩ := i
  interval_cases iv
  · simp only [renderFmt] at hr
    cases Tz2 with
    | none => exact Option.noConfusion hr
    | some o =>
      dsimp only at hr
      cases hz : renderTZ o with
      | none => rw [hz] at hr; exact Option.noConfusion hr
      | some z =>
        rw [hz, Option.map_some'] at hr
        injection hr with hr
        subst hr
        exact sound_fmt1 ycur ⟨hy1, hy2, hm1, hm2, hd1, hd2, hh, hmi, hse⟩ hz
  · simp only [renderFmt] at hr
    cases Tz2 with
    | none => exact Option.noConfusion hr
    | some o =>
      dsimp only at hr
      cases hz : renderTZ o with
      | none => rw [hz] at hr; exact Option.noConfusion hr
      | some z =>
        rw [hz, Option.map_some'] at hr
        injection hr with hr
        subst hr
        exact sound_fmt2 ycur ⟨hy1, hy2, hm1, hm2, hd1, hd2, hh, hmi, hse⟩ hz
  · simp only [renderFmt] at hr
    cases Tz2 with
    | some o => rw [if_neg (by simp)] at hr; exact Option.noConfusion hr
    | none =>
      rw [if_pos rfl] at hr
      injection hr with hr
      subst hr
      exact sound_fmt3 ycur ⟨hy1, hy2, hm1, hm2, hd1, hd2, hh, hmi, hse⟩
  · simp only [renderFmt] at hr
    cases Tz2 with
    | some o => rw [if_neg (by simp)] at hr; exact Option.noConfusion hr
    | none =>
      rcases eq_or_ne Se2 0 with hse0 | hse0
      · subst hse0
        rw [if_pos ⟨rfl, rfl⟩] at hr
        injection hr with hr
        subst hr
        rw [List.append_assoc]
        exact sound_fmt4 ycur ⟨hy1, hy2, hm1, hm2, hd1, hd2, hh, hmi, by omega⟩
      · rw [if_neg (by simp [hse0])] at hr
        exact Option.noConfusion hr
  · simp only [renderFmt] at hr
    cases Tz2 with
    | some o => rw [if_neg (by simp)] at hr; exact Option.noConfusion hr
    | none =>
      rcases eq_or_ne Se2 0 with hse0 | hse0
      · subst hse0
        rw [if_pos ⟨rfl, rfl⟩] at hr
        injection hr with hr
        subst hr
        rw [List.append_assoc]
        exact sound_fmt5 ycur ⟨hy1, hy2, hm1, hm2, hd1, hd2, hh, hmi, by omega⟩
      · rw [if_neg (by simp [hse0])] at hr
        exact Option.noConfusion hr
  · simp only [renderFmt] at hr
    cases Tz2 with
    | some o => rw [if_neg (by simp)] at hr; exact Option.noConfusion hr
    | none =>
      rcases eq_or_ne Se2 0 with hse0 | hse0
      · subst hse0
        rw [if_pos ⟨rfl, rfl⟩] at hr
        injection hr with hr
        subst hr
        rw [List.append_assoc]
        exact sound_fmt6 ycur ⟨hy1, hy2, hm1, hm2, hd1, hd2, hh, hmi, by omega⟩
      · rw [if_neg (by simp [hse0])] at hr
        exact Option.noConfusion hr
  · simp only [renderFmt] at hr
    cases Tz2 with
    | some o => rw [if_neg (by simp)] at hr; exact Option.noConfusion hr
    | none =>
      rcases eq_or_ne Se2 0 with hse0 | hse0
      · subst hse0
        rw [if_pos ⟨rfl, rfl⟩] at hr
        injection hr with hr
        subst hr
        rw [List.append_assoc]
        exact sound_fmt7 ycur ⟨hy1, hy2, hm1, hm2, hd1, hd2, hh, hmi, by omega⟩
      · rw [if_neg (by simp [hse0])] at hr
        exact Option.noConfusion hr
  · simp only [renderFmt] at hr
    cases Tz2 with
    | some o => rw [if_neg (by simp)] at hr; exact Option.noConfusion hr
    | none =>
      rcases eq_or_ne Se2 0 with hse0 | hse0
      · subst hse0
        rw [if_pos ⟨rfl, rfl⟩] at hr
        injection hr with hr
        subst hr
        exact sound_fmt8 ycur ⟨hy1, hy2, hm1, hm2, hd1, hd2, hh, hmi, by omega⟩
      · rw [if_neg (by simp [hse0])] at hr
        exact Option.noConfusion hr

/-! ## Claims -/

/-- C1: the claim states that `parse_date` is total and never raises; in
fact the regex fallback extracts an out-of-range day from
`"January 99 at 4:00 PM"` and the `datetime` constructor on line 99 of
`ical_generator.py` sits outside every `try`, so the call raises an
uncaught `ValueError` — contradicting both the claim and the function's
own docstring (`"Returns: Parsed datetime object or None"`). -/
theorem spec_C1_raises :
    parse_date (some "January 99 at 4:00 PM") 2026 =
      .error "ValueError: date value out of range" := rfl

/-- C2 counterexample: an assignment whose id is absent (`None`, as the
`generate_ical.py` pipeline passes it) is projected into an event whose
uid contains the literal `"None"`, not the claimed `"unknown"` — `.get`'s
default only covers a missing key, not a key stored as `None`. -/
theorem spec_C2_cex :
    create_event
        (toDict ⟨"9", "C", "CF", "u"⟩ ⟨"HW", none, some "2026-01-15T23:59:00", none⟩)
        now0 2026
      = .ok (some { summary := "HW - C", uid := "9-None@gradescope-sync",
                    dtstart := ⟨2026, 1, 15, 23, 59, 0, none⟩,
                    dtend := ⟨2026, 1, 15, 23, 59, 0, none⟩,
                    dtstamp := now0, description := "Course: CF", url := none })
    ∧ hasSubstr "unknown".data "9-None@gradescope-sync".data = false := ⟨rfl, rfl⟩

/-- C2 (amended): every projected event's uid is
`"{course.id}-{assignment.id}@gradescope-sync"`, where an absent (null)
assignment id renders as the literal `"None"`; the token `"unknown"` is
substituted only when the corresponding dictionary key is missing
entirely, which the pipeline never produces. -/
theorem spec_C2_amended :
    (∀ (c : CourseRecord) (a : Assignment) (now : Datetime) (y : Nat) (e : Event),
        create_event (toDict c a) now y = .ok (some e) →
        e.uid = c.id ++ "-" ++ pyShow a.id ++ "@gradescope-sync")
    ∧ (∀ (d : AssignmentDict) (now : Datetime) (y : Nat) (e : Event),
        d.course_id = none → d.assignment_id = none →
        create_event d now y = .ok (some e) →
        e.uid = "unknown-unknown@gradescope-sync") := by
  constructor
  · intro c a now y e h
    rw [create_event_uid h]
    rfl
  · intro d now y e hc ha h
    rw [create_event_uid h, hc, ha]
    rfl

/-- C2 witness: the amended uid law evaluated on a concrete pair. -/
theorem spec_C2_witness :
    ({ summary := "HW - C", uid := "123-456@gradescope-sync",
       dtstart := ⟨2026, 1, 15, 23, 59, 0, none⟩, dtend := ⟨2026, 1, 15, 23, 59, 0, none⟩,
       dtstamp := now0, description := "Course: CF", url := none } : Event).uid
      = "123" ++ "-" ++ pyShow (some "456") ++ "@gradescope-sync" :=
  spec_C2_amended.1 ⟨"123", "C", "CF", "u"⟩
    ⟨"HW", some "456", some "2026-01-15T23:59:00", none⟩ now0 2026 _ rfl

/-- C3 counterexample: two inputs that differ in `course.id` (and in
`assignment.id`) produce the same event, hence the same uid —
`("a-b", "c")` and `("a", "b-c")` both yield `"a-b-c@gradescope-sync"` —
refuting the claimed uid injectivity. -/
theorem spec_C3_cex :
    create_event
        (toDict ⟨"a-b", "C", "CF", "u"⟩ ⟨"HW", some "c", some "2026-01-15T23:59:00", none⟩)
        now0 2026 = .ok (some c3Event)
    ∧ create_event
        (toDict ⟨"a", "C", "CF", "u"⟩ ⟨"HW", some "b-c", some "2026-01-15T23:59:00", none⟩)
        now0 2026 = .ok (some c3Event)
    ∧ ("a-b" : String) ≠ "a" ∧ (some "c" : Option String) ≠ some "b-c" :=
  ⟨rfl, rfl, by decide, by decide⟩

/-- C3 (amended): the uid is a pure function of `course.id` and
`assignment.id` (identical across calls whatever the timestamp or
reference year), and it is injective on pairs whose course ids contain no
`'-'` and whose assignment ids are present. -/
theorem spec_C3_amended :
    (∀ (c : CourseRecord) (a : Assignment) (n₁ n₂ : Datetime) (y₁ y₂ : Nat) (e₁ e₂ : Event),
        create_event (toDict c a) n₁ y₁ = .ok (some e₁) →
        create_event (toDict c a) n₂ y₂ = .ok (some e₂) → e₁.uid = e₂.uid)
    ∧ (∀ (c₁ c₂ : CourseRecord) (a₁ a₂ : Assignment) (n : Datetime) (y : Nat) (e₁ e₂ : Event),
        create_event (toDict c₁ a₁) n y = .ok (some e₁) →
        create_event (toDict c₂ a₂) n y = .ok (some e₂) →
        '-' ∉ c₁.id.data → '-' ∉ c₂.id.data →
        a₁.id.isSome → a₂.id.isSome →
        (c₁.id ≠ c₂.id ∨ a₁.id ≠ a₂.id) → e₁.uid ≠ e₂.uid) := by
  constructor
  · intro c a n₁ n₂ y₁ y₂ e₁ e₂ h₁ h₂
    rw [create_event_uid h₁, create_event_uid h₂]
  · intro c₁ c₂ a₁ a₂ n y e₁ e₂ h₁ h₂ hd₁ hd₂ hs₁ hs₂ hne heq
    rw [create_event_uid h₁, create_event_uid h₂] at heq
    obtain ⟨s₁, hv₁⟩ := Option.isSome_iff_exists.mp hs₁
    obtain ⟨s₂, hv₂⟩ := Option.isSome_iff_exists.mp hs₂
    simp only [toDict, pyGetD, Option.getD_some, pyShow, hv₁, hv₂] at heq
    have hdata := congrArg String.data heq
    simp only [String.data_append, List.append_assoc, List.singleton_append] at hdata
    have hsplit := append_dash_inj hd₁ hd₂ hdata
    have hcid : c₁.id = c₂.id := strDataInj hsplit.1
    have hsid : s₁ = s₂ := strDataInj (List.append_cancel_right hsplit.2)
    cases hne with
    | inl hne => exact hne hcid
    | inr hne => exact hne (by rw [hv₁, hv₂, hsid])

/-- C3 witness: the amended injectivity law evaluated on a concrete pair
of distinct inputs. -/
theorem spec_C3_witness :
    ({ summary := "A - C", uid := "1-2@gradescope-sync",
       dtstart := ⟨2026, 1, 15, 23, 59, 0, none⟩, dtend := ⟨2026, 1, 15, 23, 59, 0, none⟩,
       dtstamp := now0, description := "Course: CF", url := none } : Event).uid
      ≠ ({ summary := "A - C", uid := "3-4@gradescope-sync",
           dtstart := ⟨2026, 1, 15, 23, 59, 0, none⟩,
           dtend := ⟨2026, 1, 15, 23, 59, 0, none⟩,
           dtstamp := now0, description := "Course: CF", url := none } : Event).uid :=
  spec_C3_amended.2 ⟨"1", "C", "CF", "u"⟩ ⟨"3", "C", "CF", "u"⟩
    ⟨"A", some "2", some "2026-01-15T23:59:00", none⟩
    ⟨"A", some "4", some "2026-01-15T23:59:00", none⟩
    now0 2026 _ _ rfl rfl (by decide) (by decide) rfl rfl (Or.inl (by decide))

/-- C4 counterexample: on a row whose first designated due-date time node
carries no datetime attribute while a second one does, the code falls
through to the hidden-cell text, but the claim's reading — "a time node
with the designated class carries a datetime attribute" — picks the
second node's attribute; the two disagree. -/
theorem spec_C4_cex :
    (get_assignments c4Soup "5").map Assignment.due_date = [some "Mar 3"]
    ∧ dueDateSpecC4 c4Row = some "2026-03-03T10:00:00"
    ∧ dueDateOf c4Row ≠ dueDateSpecC4 c4Row := ⟨rfl, rfl, by decide⟩

/-- C4 (amended): the due date is resolved by the ordered strategy chain
in which (a) consults only the *first* time node with the designated
class, a strategy succeeds only when its assigned value is non-empty, and
an untruthy assigned value is carried forward (so the terminal state is
null only when no strategy assigned anything, and otherwise the last
assigned value, possibly empty). -/
theorem spec_C4_amended : ∀ row : HNode, dueDateOf row = dueChain row := by
  intro row
  unfold dueDateOf dueChain stratA stratB stratC
  cases h1 : hfind isDueTime row with
  | some el =>
    simp only [Option.map_some']
    cases h2 : pyTruthy (el.attr "datetime") with
    | true => simp only [chainDue, h2, if_true]
    | false =>
      simp only [chainDue, h2, if_false, Bool.false_eq_true]
      cases h3 : hfindAll isHiddenTd row with
      | nil =>
        simp only [chainDue, h2]
        cases h4 : (hfindAll (fun n => n.tagOf == some "time") row).find? hasDueAt with
        | some t => simp [chainDue]
        | none => simp [chainDue]
      | cons x xs =>
        cases xs with
        | nil =>
          simp only [chainDue, h2]
          cases h4 : (hfindAll (fun n => n.tagOf == some "time") row).find? hasDueAt with
          | some t => simp [chainDue]
          | none => simp [chainDue]
        | cons c2 rest =>
          cases h4 : pyTruthy (some (getTextStrip c2)) with
          | true => simp only [chainDue, h4, if_true]
          | false =>
            simp only [chainDue, h4, if_false, Bool.false_eq_true]
            cases h5 : (hfindAll (fun n => n.tagOf == some "time") row).find? hasDueAt with
            | some t => simp [chainDue]
            | none => simp [chainDue]
  | none =>
    simp only [Option.map_none', pyTruthy_none, Bool.false_eq_true, if_false, chainDue]
    cases h3 : hfindAll isHiddenTd row with
    | nil =>
      simp only [chainDue, pyTruthy_none, Bool.false_eq_true, if_false]
      cases h4 : (hfindAll (fun n => n.tagOf == some "time") row).find? hasDueAt with
      | some t => simp [chainDue]
      | none => simp [chainDue]
    | cons x xs =>
      cases xs with
      | nil =>
        simp only [chainDue, pyTruthy_none, Bool.false_eq_true, if_false]
        cases h4 : (hfindAll (fun n => n.tagOf == some "time") row).find? hasDueAt with
        | some t => simp [chainDue]
        | none => simp [chainDue]
      | cons c2 rest =>
        cases h4 : pyTruthy (some (getTextStrip c2)) with
        | true => simp only [chainDue, h4, if_true]
        | false =>
          simp only [chainDue, h4, if_false, Bool.false_eq_true]
          cases h5 : (hfindAll (fun n => n.tagOf == some "time") row).find? hasDueAt with
          | some t => simp [chainDue]
          | none => simp [chainDue]

/-- C5: a row in which neither name strategy yields a (truthy) name is
skipped — `processRow` answers `none` — and consequently every extracted
record carries a non-empty name; the embedding is total, matching the
claim that extraction never raises on such rows. -/
theorem spec_C5_skip :
    (∀ (cid : String) (row : HNode), pyTruthy (resolvedName row) = false →
        processRow cid row = none)
    ∧ (∀ (soup : HNode) (cid : String) (r : Assignment),
        r ∈ get_assignments soup cid → r.name ≠ "") := by
  constructor
  · intro cid row h
    unfold processRow
    split
    · rfl
    · simp [h]
  · intro soup cid r hr
    unfold get_assignments at hr
    rw [List.mem_filterMap] at hr
    obtain ⟨row, _hrow, hp⟩ := hr
    unfold processRow at hp
    split at hp
    · exact Option.noConfusion hp
    · split at hp
      · exact Option.noConfusion hp
      · rename_i hname
        rw [not_not] at hname
        injection hp with hp
        subst hp
        cases hn : resolvedName row with
        | none => rw [hn] at hname; simp [pyTruthy] at hname
        | some s =>
          rw [hn] at hname
          simp only [pyTruthy, ne_eq, decide_eq_true_eq] at hname
          simp only [hn, Option.getD_some, ne_eq]
          exact hname

/-- C5 witness: the skip law evaluated on a concrete nameless row. -/
theorem spec_C5_witness :
    pyTruthy (resolvedName (HNode.elem "tr" [("role", "row")] [] [])) = false
    ∧ processRow "1" (HNode.elem "tr" [("role", "row")] [] []) = none :=
  ⟨rfl, spec_C5_skip.1 "1" (HNode.elem "tr" [("role", "row")] [] []) rfl⟩

/-- C6: whenever the input is year-less — none of the year-carrying
formats parses it — every timestamp `parse_date` returns carries the
reference year, and in particular `"January 24 at 4:00PM"` with reference
year 2026 normalizes to 2026-01-24 16:00. -/
theorem spec_C6_yearless :
    (∀ (s : String) (y : Nat) (d : Datetime),
        (∀ f ∈ fmtsWithYear, strptime f (trimL s.data) = none) →
        parse_date (some s) y = .ok (some d) → d.year = y)
    ∧ parse_date (some "January 24 at 4:00PM") 2026 =
        .ok (some ⟨2026, 1, 24, 16, 0, 0, none⟩) := by
  constructor
  · intro s y d hf hp
    unfold parse_date at hp
    dsimp only at hp
    by_cases hd : s.data = []
    · rw [if_pos hd] at hp
      exact Option.noConfusion (Except.ok.inj hp)
    · rw [if_neg hd] at hp
      simp only [tryFmts_eq_none hf] at hp
      cases hy : tryYearless fmtsNoYear (trimL s.data) y with
      | some dt =>
        simp only [hy, Except.ok.injEq, Option.some.injEq] at hp
        rw [← hp]
        exact tryYearless_year hy
      | none =>
        simp only [hy] at hp
        exact regexPhase_year hp
  · rfl

/-- C6 witness: the year-splicing law evaluated at the claim's own
example. -/
theorem spec_C6_witness :
    (∀ f ∈ fmtsWithYear, strptime f (trimL ("January 24 at 4:00PM").data) = none)
    ∧ (⟨2026, 1, 24, 16, 0, 0, none⟩ : Datetime).year = 2026 :=
  ⟨by decide,
   spec_C6_yearless.1 "January 24 at 4:00PM" 2026 ⟨2026, 1, 24, 16, 0, 0, none⟩
     (by decide) rfl⟩

/-- C7: for every valid instant rendered in two of the eight supported
absolute (year-carrying) formats, `parse_date` returns the same local
timestamp regardless of which rendering it is given, for every reference
year; in particular `"Jan 15, 2026 11:59 PM"` and `"2026-01-15T23:59:00"`
normalize to the same local timestamp. -/
theorem spec_C7_formats :
    (∀ (dt : Datetime) (y : Nat) (i j : Fin 8) (si sj : String),
      ValidDT dt → renderFmt i dt = some si → renderFmt j dt = some sj →
      parse_date (some si) y = parse_date (some sj) y)
    ∧ parse_date (some "Jan 15, 2026 11:59 PM") 2026
        = parse_date (some "2026-01-15T23:59:00") 2026 := by
  constructor
  · intro dt y i j si sj hv hi hj
    rw [render_sound hv i hi y, render_sound hv j hj y]
  · rfl

/-- C7 witness: the format-equivalence law applied at the instant
2026-01-15 23:59:00 rendered in the `"%b %d, %Y %I:%M %p"` and
`"%Y-%m-%dT%H:%M:%S"` formats. -/
theorem spec_C7_witness :
    parse_date (some "Jan 15, 2026 11:59 PM") 2026
      = parse_date (some "2026-01-15T23:59:00") 2026 :=
  spec_C7_formats.1 ⟨2026, 1, 15, 23, 59, 0, none⟩ 2026 ⟨3, by omega⟩ ⟨2, by omega⟩
    "Jan 15, 2026 11:59 PM" "2026-01-15T23:59:00" (by decide) (by decide) (by decide)

/-- C8 counterexample: the end-to-end scenario behaves as claimed — one
record, a 09:00 −08:00 start on 2026-02-01 — except for its last
conjunct: the uid is `"123-456@gradescope-sync"`, which ends in the
namespace suffix, not in the assignment id `"456"`. -/
theorem spec_C8_cex :
    get_assignments c8Soup "123" = [c8Rec]
    ∧ create_event (toDict c8Course c8Rec) now0 2026 = .ok (some c8Event)
    ∧ c8Event.dtstart = ⟨2026, 2, 1, 9, 0, 0, some (-28800)⟩
    ∧ strEndsWith c8Event.uid "456" = false := ⟨rfl, rfl, rfl, rfl⟩

/-- C8 (amended): the end-to-end scenario yields exactly one record,
whose projection starts at 09:00 with UTC offset −08:00 on 2026-02-01,
and whose uid ends in the assignment's id followed by the
`"@gradescope-sync"` namespace suffix. -/
theorem spec_C8_amended :
    get_assignments c8Soup "123" = [c8Rec]
    ∧ create_event (toDict c8Course c8Rec) now0 2026 = .ok (some c8Event)
    ∧ c8Event.dtstart = ⟨2026, 2, 1, 9, 0, 0, some (-28800)⟩
    ∧ strEndsWith c8Event.uid ("456" ++ "@gradescope-sync") = true := ⟨rfl, rfl, rfl, rfl⟩

/-- C9: permuting the assignment list permutes the produced events — both
runs succeed or both raise, and on success the event lists hold exactly
the same members (the serialization timestamp `now` held fixed). -/
theorem spec_C9_perm (l₁ l₂ : List AssignmentDict) (now : Datetime) (y : Nat)
    (h : l₁.Perm l₂) :
    isOkE (create_calendar l₁ now y) = isOkE (create_calendar l₂ now y)
    ∧ ∀ c₁ c₂, create_calendar l₁ now y = .ok c₁ → create_calendar l₂ now y = .ok c₂ →
        ∀ e : Event, e ∈ c₁.events ↔ e ∈ c₂.events := by
  have hr := @calendarEvents_rel now y l₁ l₂ h
  unfold create_calendar
  cases hA : calendarEvents l₁ now y with
  | error e₁ =>
    cases hB : calendarEvents l₂ now y with
    | error e₂ =>
      refine ⟨rfl, ?_⟩
      intro c₁ c₂ hc₁ hc₂ e
      exact Except.noConfusion hc₁
    | ok evs₂ => rw [hA, hB] at hr; exact False.elim hr
  | ok evs₁ =>
    cases hB : calendarEvents l₂ now y with
    | error e₂ => rw [hA, hB] at hr; exact False.elim hr
    | ok evs₂ =>
      rw [hA, hB] at hr
      refine ⟨rfl, ?_⟩
      intro c₁ c₂ hc₁ hc₂ e
      injection hc₁ with hc₁
      injection hc₂ with hc₂
      subst hc₁; subst hc₂
      exact (hr : evs₁.Perm evs₂).mem_iff

/-- C9 witness: the permutation law evaluated on a concrete two-element
swap. -/
theorem spec_C9_witness :
    ([dictA, dictB].Perm [dictB, dictA])
    ∧ isOkE (create_calendar [dictA, dictB] now0 2026)
        = isOkE (create_calendar [dictB, dictA] now0 2026) :=
  ⟨by decide, (spec_C9_perm [dictA, dictB] [dictB, dictA] now0 2026 (by decide)).1⟩

/-- C10 counterexample: a row whose button carries
`data-assignment-title="HW1"` and `data-assignment-id=""` produces a
record with a non-null id (`some ""`) and a null url — the empty string
is falsy — refuting the claim that every record with a non-null id has a
non-null url. -/
theorem spec_C10_cex :
    get_assignments c10Soup "77" = [⟨"HW1", some "", none, none⟩]
    ∧ (⟨"HW1", some "", none, none⟩ : Assignment).id.isSome = true
    ∧ (⟨"HW1", some "", none, none⟩ : Assignment).url = none := ⟨rfl, rfl, rfl⟩

/-- C10 (amended): every extracted record's url follows the truthiness
chain — base+href when an anchor supplied a (non-empty) href, else the
course/assignment path when the id is non-empty, else null — and every
record with a non-*empty* id has a non-null url. -/
theorem spec_C10_amended :
    ∀ (cid : String) (row : HNode) (r : Assignment), processRow cid row = some r →
      r.url = urlOf cid (hrefOf row) r.id
      ∧ (∀ s, r.id = some s → s ≠ "" → r.url ≠ none) := by
  intro cid row r hp
  unfold processRow at hp
  split at hp
  · exact Option.noConfusion hp
  · split at hp
    · exact Option.noConfusion hp
    · injection hp with hp
      subst hp
      refine ⟨rfl, ?_⟩
      intro s hs hne
      have hs2 : resolvedAid row = some s := hs
      unfold urlOf
      split
      · simp
      · split
        · simp
        · rename_i hq
          exfalso
          apply hq
          rw [hs2]
          simp [pyTruthy, hne]

/-- C10 witness: the url law evaluated on a concrete anchor row. -/
theorem spec_C10_witness :
    (⟨"HW", some "5", none,
        some "https://www.gradescope.com/assignments/5"⟩ : Assignment).url
      = urlOf "9" (hrefOf c10RowW) (some "5") :=
  (spec_C10_amended "9" c10RowW _ rfl).1

end GradescopeSync
